import Mathlib

/-!
# Verification of the HPE scene-editor core (hpe.py)

Shallow embedding, over the exact reals, of the transform, gizmo-drag,
physics-toggle and UI-edit routines of `src/hpe/code/hpe.py`, together with
the `trimesh.transformations` library routines those functions call
(`compose_matrix`, `euler_matrix`, `decompose_matrix`, `rotation_matrix`,
`translation_matrix`).  Python floats are modelled as real numbers; numpy
3-vectors as `Vec3`; numpy 4x4 matrices as `Matrix (Fin 4) (Fin 4) ℝ`.
-/

open Real

/-- A 3-component vector of reals, modelling a numpy array of length 3. -/
structure Vec3 where
  x : ℝ
  y : ℝ
  z : ℝ

namespace Vec3

instance : Add Vec3 := ⟨fun a b => ⟨a.x + b.x, a.y + b.y, a.z + b.z⟩⟩
instance : Sub Vec3 := ⟨fun a b => ⟨a.x - b.x, a.y - b.y, a.z - b.z⟩⟩
instance : Neg Vec3 := ⟨fun a => ⟨-a.x, -a.y, -a.z⟩⟩
instance : SMul ℝ Vec3 := ⟨fun c a => ⟨c * a.x, c * a.y, c * a.z⟩⟩

@[simp] theorem add_def (a b : Vec3) : a + b = ⟨a.x + b.x, a.y + b.y, a.z + b.z⟩ := rfl
@[simp] theorem sub_def (a b : Vec3) : a - b = ⟨a.x - b.x, a.y - b.y, a.z - b.z⟩ := rfl
@[simp] theorem neg_def (a : Vec3) : -a = ⟨-a.x, -a.y, -a.z⟩ := rfl
@[simp] theorem smul_def (c : ℝ) (a : Vec3) : c • a = ⟨c * a.x, c * a.y, c * a.z⟩ := rfl

theorem eq_iff {a b : Vec3} : a = b ↔ a.x = b.x ∧ a.y = b.y ∧ a.z = b.z := by
  cases a; cases b; simp

end Vec3

/-- Dot product of two 3-vectors (`numpy.dot`). -/
def dot3 (a b : Vec3) : ℝ := a.x * b.x + a.y * b.y + a.z * b.z

/-- Cross product of two 3-vectors (`numpy.cross`). -/
def cross3 (a b : Vec3) : Vec3 :=
  ⟨a.y * b.z - a.z * b.y, a.z * b.x - a.x * b.z, a.x * b.y - a.y * b.x⟩

/-- Euclidean norm of a 3-vector (`numpy.linalg.norm` / `vector_norm`). -/
noncomputable def norm3 (a : Vec3) : ℝ := Real.sqrt (a.x ^ 2 + a.y ^ 2 + a.z ^ 2)

theorem norm3_nonneg (a : Vec3) : 0 ≤ norm3 a := Real.sqrt_nonneg _

/-- Two-argument arctangent, modelling Python `math.atan2 y x` over ℝ. -/
noncomputable def atan2 (y x : ℝ) : ℝ :=
  if 0 < x then Real.arctan (y / x)
  else if x < 0 then
    (if 0 ≤ y then Real.arctan (y / x) + Real.pi else Real.arctan (y / x) - Real.pi)
  else
    (if 0 < y then Real.pi / 2 else if y < 0 then -(Real.pi / 2) else 0)

theorem atan2_of_pos (y x : ℝ) (hx : 0 < x) : atan2 y x = Real.arctan (y / x) := by
  simp [atan2, hx]

theorem atan2_pos_zero (y : ℝ) (hy : 0 < y) : atan2 y 0 = Real.pi / 2 := by
  simp [atan2, hy]

theorem atan2_neg_zero (y : ℝ) (hy : y < 0) : atan2 y 0 = -(Real.pi / 2) := by
  simp [atan2, hy, not_lt.mpr hy.le]

/-- 4x4 matrix of reals. -/
abbrev Mat4 := Matrix (Fin 4) (Fin 4) ℝ

/-- `trimesh.transformations.translation_matrix`: identity with the offset in
the last column. -/
def translation_matrix (d : Vec3) : Mat4 :=
  Matrix.of ![![1, 0, 0, d.x],
               ![0, 1, 0, d.y],
               ![0, 0, 1, d.z],
               ![0, 0, 0, 1]]

/-- The 4x4 scale matrix built inline by `trimesh.transformations.compose_matrix`
(and by `_create_transform_matrix` as `scale_matrix`). -/
def scale_matrix4 (s : Vec3) : Mat4 :=
  Matrix.of ![![s.x, 0, 0, 0],
               ![0, s.y, 0, 0],
               ![0, 0, s.z, 0],
               ![0, 0, 0, 1]]

/-- `trimesh.transformations.euler_matrix ai aj ak (axes := sxyz)`:
the non-repetition branch with `i = 0`, `j = 1`, `k = 2`, no angle swap or
negation.  Entries are written exactly as in the library source
(`cj*ck`, `sj*sc-cs`, ...). -/
noncomputable def euler_matrix_sxyz (ai aj ak : ℝ) : Mat4 :=
  let si := Real.sin ai; let sj := Real.sin aj; let sk := Real.sin ak
  let ci := Real.cos ai; let cj := Real.cos aj; let ck := Real.cos ak
  let cc := ci * ck; let cs := ci * sk
  let sc := si * ck; let ss := si * sk
  Matrix.of ![![cj * ck, sj * sc - cs, sj * cc + ss, 0],
               ![cj * sk, sj * ss + cc, sj * cs - sc, 0],
               ![-sj, cj * si, cj * ci, 0],
               ![0, 0, 0, 1]]

/-- `trimesh.transformations.compose_matrix scale angles translate` with
`shear = None` and `perspective = None`, exactly as called by
`_recompose_transform`: `M = ((I·T)·R)·S` followed by `M /= M[3,3]`. -/
noncomputable def compose_matrix (scale angles translate : Vec3) : Mat4 :=
  let M := translation_matrix translate
    * euler_matrix_sxyz angles.x angles.y angles.z * scale_matrix4 scale
  (M 3 3)⁻¹ • M

/-- `_recompose_transform(part)`: world matrix from position, rotation
(Euler radians) and scale via `trimesh.transformations.compose_matrix`
with angle convention sxyz. -/
noncomputable def recompose_transform (position rotation_ scale : Vec3) : Mat4 :=
  compose_matrix scale rotation_ position

/-- The X-axis rotation matrix `rot_x` of `_create_transform_matrix`. -/
noncomputable def rot_x_matrix (rx : ℝ) : Mat4 :=
  let cos_x := Real.cos rx; let sin_x := Real.sin rx
  Matrix.of ![![1, 0, 0, 0],
               ![0, cos_x, -sin_x, 0],
               ![0, sin_x, cos_x, 0],
               ![0, 0, 0, 1]]

/-- The Y-axis rotation matrix `rot_y` of `_create_transform_matrix`. -/
noncomputable def rot_y_matrix (ry : ℝ) : Mat4 :=
  let cos_y := Real.cos ry; let sin_y := Real.sin ry
  Matrix.of ![![cos_y, 0, sin_y, 0],
               ![0, 1, 0, 0],
               ![-sin_y, 0, cos_y, 0],
               ![0, 0, 0, 1]]

/-- The Z-axis rotation matrix `rot_z` of `_create_transform_matrix`. -/
noncomputable def rot_z_matrix (rz : ℝ) : Mat4 :=
  let cos_z := Real.cos rz; let sin_z := Real.sin rz
  Matrix.of ![![cos_z, -sin_z, 0, 0],
               ![sin_z, cos_z, 0, 0],
               ![0, 0, 1, 0],
               ![0, 0, 0, 1]]

/-- The translation matrix `trans_matrix` of `_create_transform_matrix`. -/
def trans_matrix (position : Vec3) : Mat4 :=
  Matrix.of ![![1, 0, 0, position.x],
               ![0, 1, 0, position.y],
               ![0, 0, 1, position.z],
               ![0, 0, 0, 1]]

/-- `_create_transform_matrix(position, rotation, scale)`:
`trans_matrix @ (rot_z @ rot_y @ rot_x) @ scale_matrix`. -/
noncomputable def create_transform_matrix (position rotation_ scale : Vec3) : Mat4 :=
  let rotation_matrix := rot_z_matrix rotation_.z * rot_y_matrix rotation_.y
    * rot_x_matrix rotation_.x
  trans_matrix position * rotation_matrix * scale_matrix4 scale

/-- Explicit entry-level form of the world matrix `T · Rz · Ry · Rx · S`:
rotation columns scaled by the scale components, translation in the last
column. -/
noncomputable def trs_matrix (p r s : Vec3) : Mat4 :=
  let sx := Real.sin r.x; let cx := Real.cos r.x
  let sy := Real.sin r.y; let cy := Real.cos r.y
  let sz := Real.sin r.z; let cz := Real.cos r.z
  Matrix.of ![![cz * cy * s.x, (cz * sy * sx - sz * cx) * s.y, (cz * sy * cx + sz * sx) * s.z, p.x],
               ![sz * cy * s.x, (sz * sy * sx + cz * cx) * s.y, (sz * sy * cx - cz * sx) * s.z, p.y],
               ![-sy * s.x, cy * sx * s.y, cy * cx * s.z, p.z],
               ![0, 0, 0, 1]]

theorem rot_zy_explicit (ry rz : ℝ) :
    rot_z_matrix rz * rot_y_matrix ry =
    Matrix.of ![![Real.cos rz * Real.cos ry, -Real.sin rz, Real.cos rz * Real.sin ry, 0],
                 ![Real.sin rz * Real.cos ry, Real.cos rz, Real.sin rz * Real.sin ry, 0],
                 ![-Real.sin ry, 0, Real.cos ry, 0],
                 ![0, 0, 0, 1]] := by
  ext i j
  fin_cases i <;> fin_cases j <;>
    simp [rot_z_matrix, rot_y_matrix, Matrix.mul_apply, Fin.sum_univ_four,
      Matrix.vecHead, Matrix.vecTail]

theorem rot_zyx_explicit (rx ry rz : ℝ) :
    rot_z_matrix rz * rot_y_matrix ry * rot_x_matrix rx =
    Matrix.of ![![Real.cos rz * Real.cos ry,
                  Real.cos rz * Real.sin ry * Real.sin rx - Real.sin rz * Real.cos rx,
                  Real.cos rz * Real.sin ry * Real.cos rx + Real.sin rz * Real.sin rx, 0],
                 ![Real.sin rz * Real.cos ry,
                  Real.sin rz * Real.sin ry * Real.sin rx + Real.cos rz * Real.cos rx,
                  Real.sin rz * Real.sin ry * Real.cos rx - Real.cos rz * Real.sin rx, 0],
                 ![-Real.sin ry, Real.cos ry * Real.sin rx, Real.cos ry * Real.cos rx, 0],
                 ![0, 0, 0, 1]] := by
  rw [rot_zy_explicit]
  ext i j
  fin_cases i <;> fin_cases j <;>
    simp [rot_x_matrix, Matrix.mul_apply, Fin.sum_univ_four,
      Matrix.vecHead, Matrix.vecTail] <;> ring_nf

theorem trans_rot_explicit (p r : Vec3) :
    trans_matrix p * (rot_z_matrix r.z * rot_y_matrix r.y * rot_x_matrix r.x) =
    Matrix.of ![![Real.cos r.z * Real.cos r.y,
                  Real.cos r.z * Real.sin r.y * Real.sin r.x - Real.sin r.z * Real.cos r.x,
                  Real.cos r.z * Real.sin r.y * Real.cos r.x + Real.sin r.z * Real.sin r.x, p.x],
                 ![Real.sin r.z * Real.cos r.y,
                  Real.sin r.z * Real.sin r.y * Real.sin r.x + Real.cos r.z * Real.cos r.x,
                  Real.sin r.z * Real.sin r.y * Real.cos r.x - Real.cos r.z * Real.sin r.x, p.y],
                 ![-Real.sin r.y, Real.cos r.y * Real.sin r.x, Real.cos r.y * Real.cos r.x, p.z],
                 ![0, 0, 0, 1]] := by
  rw [rot_zyx_explicit]
  ext i j
  fin_cases i <;> fin_cases j <;>
    simp [trans_matrix, Matrix.mul_apply, Fin.sum_univ_four,
      Matrix.vecHead, Matrix.vecTail]

theorem create_transform_matrix_eq (p r s : Vec3) :
    create_transform_matrix p r s = trs_matrix p r s := by
  show trans_matrix p * (rot_z_matrix r.z * rot_y_matrix r.y * rot_x_matrix r.x)
      * scale_matrix4 s = trs_matrix p r s
  rw [trans_rot_explicit]
  ext i j
  fin_cases i <;> fin_cases j <;>
    simp [scale_matrix4, trs_matrix, Matrix.mul_apply,
      Fin.sum_univ_four, Matrix.vecHead, Matrix.vecTail]

theorem euler_matrix_sxyz_eq (ai aj ak : ℝ) :
    euler_matrix_sxyz ai aj ak =
      rot_z_matrix ak * rot_y_matrix aj * rot_x_matrix ai := by
  rw [rot_zyx_explicit]
  ext i j
  fin_cases i <;> fin_cases j <;>
    simp [euler_matrix_sxyz, Matrix.vecHead, Matrix.vecTail] <;> ring

theorem compose_matrix_eq (s r p : Vec3) :
    compose_matrix s r p = trs_matrix p r s := by
  show ((translation_matrix p * euler_matrix_sxyz r.x r.y r.z * scale_matrix4 s) 3 3)⁻¹
      • (translation_matrix p * euler_matrix_sxyz r.x r.y r.z * scale_matrix4 s)
      = trs_matrix p r s
  have hM : translation_matrix p * euler_matrix_sxyz r.x r.y r.z * scale_matrix4 s
      = trs_matrix p r s := by
    rw [euler_matrix_sxyz_eq]
    exact create_transform_matrix_eq p r s
  rw [hM]
  have h33 : trs_matrix p r s 3 3 = 1 := rfl
  rw [h33, inv_one, one_smul]

/-- C2: for every position `p`, Euler rotation `r` (radians) and scale `s`, the
world matrix from the gizmo/render path `_recompose_transform` (trimesh
`compose_matrix` with sxyz angles) equals the matrix from the physics path
`_create_transform_matrix`, and both equal the product
`T · Rz · Ry · Rx · S` of translation, per-axis rotation and scale matrices. -/
theorem recompose_eq_create_transform (p r s : Vec3) :
    recompose_transform p r s = create_transform_matrix p r s ∧
    create_transform_matrix p r s =
      trans_matrix p * rot_z_matrix r.z * rot_y_matrix r.y * rot_x_matrix r.x
        * scale_matrix4 s := by
  constructor
  · rw [show recompose_transform p r s = compose_matrix s r p from rfl,
      compose_matrix_eq, create_transform_matrix_eq]
  · show trans_matrix p * (rot_z_matrix r.z * rot_y_matrix r.y * rot_x_matrix r.x)
        * scale_matrix4 s = _
    simp only [mul_assoc]

/-- Result record of `trimesh.transformations.decompose_matrix`.  The
`perspective` component is omitted: every call site in hpe.py discards it
(and its computation does not feed into the other four results). -/
structure Decomposition where
  scale : Vec3
  shear : Vec3
  angles : Vec3
  translate : Vec3

/- The `dm_` definitions below mirror, assignment by assignment, the body of
`trimesh.transformations.decompose_matrix(matrix)`.  The numpy code copies the
input transposed and divides it by `M[3,3]`, so "row i" below is column `i` of
the input matrix divided by the corner entry; `translate` is the last column.
The `ValueError` raised for a zero corner or a singular upper block is not
modelled (all matrices decomposed here have corner 1). -/

/-- `row[0]` after `M = matrix.T / M[3,3]`. -/
noncomputable def dm_row0 (A : Mat4) : Vec3 :=
  ⟨A 0 0 / A 3 3, A 1 0 / A 3 3, A 2 0 / A 3 3⟩

/-- `row[1]`. -/
noncomputable def dm_row1 (A : Mat4) : Vec3 :=
  ⟨A 0 1 / A 3 3, A 1 1 / A 3 3, A 2 1 / A 3 3⟩

/-- `row[2]`. -/
noncomputable def dm_row2 (A : Mat4) : Vec3 :=
  ⟨A 0 2 / A 3 3, A 1 2 / A 3 3, A 2 2 / A 3 3⟩

/-- `translate = M[3, :3]` of the transposed scaled copy. -/
noncomputable def dm_translate (A : Mat4) : Vec3 :=
  ⟨A 0 3 / A 3 3, A 1 3 / A 3 3, A 2 3 / A 3 3⟩

/-- `scale[0] = vector_norm(row[0])`. -/
noncomputable def dm_scale0 (A : Mat4) : ℝ := norm3 (dm_row0 A)

/-- `row[0] /= scale[0]`. -/
noncomputable def dm_u0 (A : Mat4) : Vec3 := (dm_scale0 A)⁻¹ • dm_row0 A

/-- `shear[0] = dot(row[0], row[1])` (before the later `/= scale[1]`). -/
noncomputable def dm_shear0x (A : Mat4) : ℝ := dot3 (dm_u0 A) (dm_row1 A)

/-- `row[1] -= row[0] * shear[0]`. -/
noncomputable def dm_w1 (A : Mat4) : Vec3 := dm_row1 A - dm_shear0x A • dm_u0 A

/-- `scale[1] = vector_norm(row[1])`. -/
noncomputable def dm_scale1 (A : Mat4) : ℝ := norm3 (dm_w1 A)

/-- `row[1] /= scale[1]`. -/
noncomputable def dm_u1 (A : Mat4) : Vec3 := (dm_scale1 A)⁻¹ • dm_w1 A

/-- `shear[0] /= scale[1]`. -/
noncomputable def dm_shear0 (A : Mat4) : ℝ := dm_shear0x A / dm_scale1 A

/-- `shear[1] = dot(row[0], row[2])` (before the later `/= scale[2]`). -/
noncomputable def dm_shear1x (A : Mat4) : ℝ := dot3 (dm_u0 A) (dm_row2 A)

/-- `row[2] -= row[0] * shear[1]`. -/
noncomputable def dm_w2 (A : Mat4) : Vec3 := dm_row2 A - dm_shear1x A • dm_u0 A

/-- `shear[2] = dot(row[1], row[2])` (before the later `/= scale[2]`). -/
noncomputable def dm_shear2x (A : Mat4) : ℝ := dot3 (dm_u1 A) (dm_w2 A)

/-- `row[2] -= row[1] * shear[2]`. -/
noncomputable def dm_w2b (A : Mat4) : Vec3 := dm_w2 A - dm_shear2x A • dm_u1 A

/-- `scale[2] = vector_norm(row[2])`. -/
noncomputable def dm_scale2 (A : Mat4) : ℝ := norm3 (dm_w2b A)

/-- `row[2] /= scale[2]`. -/
noncomputable def dm_u2 (A : Mat4) : Vec3 := (dm_scale2 A)⁻¹ • dm_w2b A

/-- `shear[1] /= scale[2]`. -/
noncomputable def dm_shear1 (A : Mat4) : ℝ := dm_shear1x A / dm_scale2 A

/-- `shear[2] /= scale[2]`. -/
noncomputable def dm_shear2 (A : Mat4) : ℝ := dm_shear2x A / dm_scale2 A

/-- The sign test `dot(row[0], cross(row[1], row[2]))`. -/
noncomputable def dm_det (A : Mat4) : ℝ :=
  dot3 (dm_u0 A) (cross3 (dm_u1 A) (dm_u2 A))

/-- `numpy.negative(scale, scale)` when the triple product is negative. -/
noncomputable def dm_scaleF (A : Mat4) : Vec3 :=
  if dm_det A < 0 then ⟨-(dm_scale0 A), -(dm_scale1 A), -(dm_scale2 A)⟩
  else ⟨dm_scale0 A, dm_scale1 A, dm_scale2 A⟩

/-- `numpy.negative(row, row)` (first row) when the triple product is negative. -/
noncomputable def dm_v0 (A : Mat4) : Vec3 := if dm_det A < 0 then -(dm_u0 A) else dm_u0 A

/-- Second row after the possible negation. -/
noncomputable def dm_v1 (A : Mat4) : Vec3 := if dm_det A < 0 then -(dm_u1 A) else dm_u1 A

/-- Third row after the possible negation. -/
noncomputable def dm_v2 (A : Mat4) : Vec3 := if dm_det A < 0 then -(dm_u2 A) else dm_u2 A

/-- `angles[1] = math.asin(-row[0, 2])`. -/
noncomputable def dm_ay (A : Mat4) : ℝ := Real.arcsin (-((dm_v0 A).z))

/-- `angles[0]`, `angles[1]`, `angles[2]`: the `if math.cos(angles[1]):`
dispatch (Python truthiness: the first branch runs iff the cosine is
nonzero). -/
noncomputable def dm_angles (A : Mat4) : Vec3 :=
  if Real.cos (dm_ay A) = 0 then
    ⟨atan2 (-((dm_v2 A).y)) ((dm_v1 A).y), dm_ay A, 0⟩
  else
    ⟨atan2 ((dm_v1 A).z) ((dm_v2 A).z), dm_ay A, atan2 ((dm_v0 A).y) ((dm_v0 A).x)⟩

/-- `trimesh.transformations.decompose_matrix`: scale, shear, Euler angles
(sxyz) and translation extracted from a 4x4 transformation matrix. -/
noncomputable def decompose_matrix (A : Mat4) : Decomposition :=
  { scale := dm_scaleF A
    shear := ⟨dm_shear0 A, dm_shear1 A, dm_shear2 A⟩
    angles := dm_angles A
    translate := dm_translate A }

/-- Decomposition of a translation–rotation–scale matrix: if the upper 3x3
block of `A` has columns `s0 • c0`, `s1 • c1`, `s2 • c2` with `c0 c1 c2` a
positively oriented orthonormal triple and positive scales, corner 1 and
last column `p`, then the Gram–Schmidt pass of `decompose_matrix` recovers
the scales, zero shear, the rows `c0 c1 c2`, and the translation exactly. -/
theorem dm_of_TRS (A : Mat4) (p c0 c1 c2 : Vec3) (s0 s1 s2 : ℝ)
    (hA00 : A 0 0 = c0.x * s0) (hA10 : A 1 0 = c0.y * s0) (hA20 : A 2 0 = c0.z * s0)
    (hA01 : A 0 1 = c1.x * s1) (hA11 : A 1 1 = c1.y * s1) (hA21 : A 2 1 = c1.z * s1)
    (hA02 : A 0 2 = c2.x * s2) (hA12 : A 1 2 = c2.y * s2) (hA22 : A 2 2 = c2.z * s2)
    (hA03 : A 0 3 = p.x) (hA13 : A 1 3 = p.y) (hA23 : A 2 3 = p.z)
    (hA33 : A 3 3 = 1)
    (hs0 : 0 < s0) (hs1 : 0 < s1) (hs2 : 0 < s2)
    (h00 : dot3 c0 c0 = 1) (h11 : dot3 c1 c1 = 1) (h22 : dot3 c2 c2 = 1)
    (h01 : dot3 c0 c1 = 0) (h02 : dot3 c0 c2 = 0) (h12 : dot3 c1 c2 = 0)
    (hdet : dot3 c0 (cross3 c1 c2) = 1) :
    dm_translate A = p ∧ dm_scaleF A = ⟨s0, s1, s2⟩ ∧
    dm_v0 A = c0 ∧ dm_v1 A = c1 ∧ dm_v2 A = c2 ∧
    dm_shear0 A = 0 ∧ dm_shear1 A = 0 ∧ dm_shear2 A = 0 := by
  simp only [dot3, cross3] at h00 h11 h22 h01 h02 h12 hdet
  have hrow0 : dm_row0 A = s0 • c0 := by
    simp only [dm_row0, hA00, hA10, hA20, hA33, div_one, Vec3.smul_def, Vec3.mk.injEq]
    exact ⟨mul_comm _ _, mul_comm _ _, mul_comm _ _⟩
  have hrow1 : dm_row1 A = s1 • c1 := by
    simp only [dm_row1, hA01, hA11, hA21, hA33, div_one, Vec3.smul_def, Vec3.mk.injEq]
    exact ⟨mul_comm _ _, mul_comm _ _, mul_comm _ _⟩
  have hrow2 : dm_row2 A = s2 • c2 := by
    simp only [dm_row2, hA02, hA12, hA22, hA33, div_one, Vec3.smul_def, Vec3.mk.injEq]
    exact ⟨mul_comm _ _, mul_comm _ _, mul_comm _ _⟩
  have hsc0 : dm_scale0 A = s0 := by
    rw [dm_scale0, hrow0]
    show Real.sqrt ((s0 * c0.x) ^ 2 + (s0 * c0.y) ^ 2 + (s0 * c0.z) ^ 2) = s0
    rw [show (s0 * c0.x) ^ 2 + (s0 * c0.y) ^ 2 + (s0 * c0.z) ^ 2 = s0 ^ 2 by
      linear_combination s0 ^ 2 * h00]
    exact Real.sqrt_sq hs0.le
  have hu0 : dm_u0 A = c0 := by
    rw [dm_u0, hsc0, hrow0, Vec3.eq_iff]
    simp only [Vec3.smul_def]
    exact ⟨inv_mul_cancel_left₀ hs0.ne' _, inv_mul_cancel_left₀ hs0.ne' _,
      inv_mul_cancel_left₀ hs0.ne' _⟩
  have hsh0x : dm_shear0x A = 0 := by
    rw [dm_shear0x, hu0, hrow1]
    show c0.x * (s1 * c1.x) + c0.y * (s1 * c1.y) + c0.z * (s1 * c1.z) = 0
    linear_combination s1 * h01
  have hw1 : dm_w1 A = s1 • c1 := by
    rw [dm_w1, hrow1, hsh0x]
    simp only [Vec3.smul_def, Vec3.sub_def, Vec3.mk.injEq]
    refine ⟨by ring, by ring, by ring⟩
  have hsc1 : dm_scale1 A = s1 := by
    rw [dm_scale1, hw1]
    show Real.sqrt ((s1 * c1.x) ^ 2 + (s1 * c1.y) ^ 2 + (s1 * c1.z) ^ 2) = s1
    rw [show (s1 * c1.x) ^ 2 + (s1 * c1.y) ^ 2 + (s1 * c1.z) ^ 2 = s1 ^ 2 by
      linear_combination s1 ^ 2 * h11]
    exact Real.sqrt_sq hs1.le
  have hu1 : dm_u1 A = c1 := by
    rw [dm_u1, hsc1, hw1, Vec3.eq_iff]
    simp only [Vec3.smul_def]
    exact ⟨inv_mul_cancel_left₀ hs1.ne' _, inv_mul_cancel_left₀ hs1.ne' _,
      inv_mul_cancel_left₀ hs1.ne' _⟩
  have hsh1x : dm_shear1x A = 0 := by
    rw [dm_shear1x, hu0, hrow2]
    show c0.x * (s2 * c2.x) + c0.y * (s2 * c2.y) + c0.z * (s2 * c2.z) = 0
    linear_combination s2 * h02
  have hw2 : dm_w2 A = s2 • c2 := by
    rw [dm_w2, hrow2, hsh1x]
    simp only [Vec3.smul_def, Vec3.sub_def, Vec3.mk.injEq]
    refine ⟨by ring, by ring, by ring⟩
  have hsh2x : dm_shear2x A = 0 := by
    rw [dm_shear2x, hu1, hw2]
    show c1.x * (s2 * c2.x) + c1.y * (s2 * c2.y) + c1.z * (s2 * c2.z) = 0
    linear_combination s2 * h12
  have hw2b : dm_w2b A = s2 • c2 := by
    rw [dm_w2b, hw2, hsh2x]
    simp only [Vec3.smul_def, Vec3.sub_def, Vec3.mk.injEq]
    refine ⟨by ring, by ring, by ring⟩
  have hsc2 : dm_scale2 A = s2 := by
    rw [dm_scale2, hw2b]
    show Real.sqrt ((s2 * c2.x) ^ 2 + (s2 * c2.y) ^ 2 + (s2 * c2.z) ^ 2) = s2
    rw [show (s2 * c2.x) ^ 2 + (s2 * c2.y) ^ 2 + (s2 * c2.z) ^ 2 = s2 ^ 2 by
      linear_combination s2 ^ 2 * h22]
    exact Real.sqrt_sq hs2.le
  have hu2 : dm_u2 A = c2 := by
    rw [dm_u2, hsc2, hw2b, Vec3.eq_iff]
    simp only [Vec3.smul_def]
    exact ⟨inv_mul_cancel_left₀ hs2.ne' _, inv_mul_cancel_left₀ hs2.ne' _,
      inv_mul_cancel_left₀ hs2.ne' _⟩
  have hdet1 : dm_det A = 1 := by
    rw [dm_det, hu0, hu1, hu2]
    show c0.x * (c1.y * c2.z - c1.z * c2.y) + c0.y * (c1.z * c2.x - c1.x * c2.z)
      + c0.z * (c1.x * c2.y - c1.y * c2.x) = 1
    linear_combination hdet
  have hflip : ¬ dm_det A < 0 := by rw [hdet1]; norm_num
  refine ⟨?_, ?_, ?_, ?_, ?_, ?_, ?_, ?_⟩
  · rw [dm_translate, hA03, hA13, hA23, hA33]
    simp only [div_one]
  · rw [dm_scaleF, if_neg hflip, hsc0, hsc1, hsc2]
  · rw [dm_v0, if_neg hflip, hu0]
  · rw [dm_v1, if_neg hflip, hu1]
  · rw [dm_v2, if_neg hflip, hu2]
  · rw [dm_shear0, hsh0x, zero_div]
  · rw [dm_shear1, hsh1x, zero_div]
  · rw [dm_shear2, hsh2x, zero_div]

theorem atan2_mul_cos (a c : ℝ) (ha : |a| < Real.pi / 2) (hc : 0 < c) :
    atan2 (c * Real.sin a) (c * Real.cos a) = a := by
  obtain ⟨ha1, ha2⟩ := abs_lt.mp ha
  have hcos : 0 < Real.cos a := Real.cos_pos_of_mem_Ioo ⟨ha1, ha2⟩
  rw [atan2_of_pos _ _ (mul_pos hc hcos), mul_div_mul_left _ _ hc.ne',
    ← Real.tan_eq_sin_div_cos]
  exact Real.arctan_tan ha1 ha2

/-- Angle extraction of `decompose_matrix` on the (normalized, sign-corrected)
row triple produced by a rotation `Rz · Ry · Rx` with all three angles strictly
inside `(-pi/2, pi/2)`: the sxyz Euler angles are recovered exactly. -/
theorem dm_angles_of_trig (A : Mat4) (rx ry rz : ℝ)
    (hrx : |rx| < Real.pi / 2) (hry : |ry| < Real.pi / 2) (hrz : |rz| < Real.pi / 2)
    (hv0 : dm_v0 A = ⟨Real.cos rz * Real.cos ry, Real.sin rz * Real.cos ry, -Real.sin ry⟩)
    (hv1 : dm_v1 A = ⟨Real.cos rz * Real.sin ry * Real.sin rx - Real.sin rz * Real.cos rx,
      Real.sin rz * Real.sin ry * Real.sin rx + Real.cos rz * Real.cos rx,
      Real.cos ry * Real.sin rx⟩)
    (hv2 : dm_v2 A = ⟨Real.cos rz * Real.sin ry * Real.cos rx + Real.sin rz * Real.sin rx,
      Real.sin rz * Real.sin ry * Real.cos rx - Real.cos rz * Real.sin rx,
      Real.cos ry * Real.cos rx⟩) :
    dm_angles A = ⟨rx, ry, rz⟩ := by
  obtain ⟨hry1, hry2⟩ := abs_lt.mp hry
  have hay : dm_ay A = ry := by
    rw [dm_ay, hv0]
    show Real.arcsin (-(-Real.sin ry)) = ry
    rw [neg_neg]
    exact Real.arcsin_sin hry1.le hry2.le
  have hcy : 0 < Real.cos ry := Real.cos_pos_of_mem_Ioo ⟨hry1, hry2⟩
  have hcos : ¬ Real.cos (dm_ay A) = 0 := by rw [hay]; exact hcy.ne'
  rw [dm_angles, if_neg hcos, hay, hv0, hv1, hv2]
  rw [Vec3.eq_iff]
  refine ⟨?_, rfl, ?_⟩
  · show atan2 (Real.cos ry * Real.sin rx) (Real.cos ry * Real.cos rx) = rx
    exact atan2_mul_cos rx (Real.cos ry) hrx hcy
  · show atan2 (Real.sin rz * Real.cos ry) (Real.cos rz * Real.cos ry) = rz
    rw [mul_comm (Real.sin rz), mul_comm (Real.cos rz)]
    exact atan2_mul_cos rz (Real.cos ry) hrz hcy

/-- Exact round trip at the level of the full decomposition record, for
rotations strictly inside `(-pi/2, pi/2)` per axis and positive scales. -/
theorem decompose_recompose_exact (p r s : Vec3)
    (hrx : |r.x| < Real.pi / 2) (hry : |r.y| < Real.pi / 2) (hrz : |r.z| < Real.pi / 2)
    (hsx : 0 < s.x) (hsy : 0 < s.y) (hsz : 0 < s.z) :
    decompose_matrix (recompose_transform p r s) =
      { scale := s, shear := ⟨0, 0, 0⟩, angles := r, translate := p } := by
  have hA : recompose_transform p r s = trs_matrix p r s := compose_matrix_eq s r p
  rw [hA]
  have hx := Real.sin_sq_add_cos_sq r.x
  have hy := Real.sin_sq_add_cos_sq r.y
  have hz := Real.sin_sq_add_cos_sq r.z
  obtain ⟨htr, hscale, hv0, hv1, hv2, hsh0, hsh1, hsh2⟩ :=
    dm_of_TRS (trs_matrix p r s) p
      ⟨Real.cos r.z * Real.cos r.y, Real.sin r.z * Real.cos r.y, -Real.sin r.y⟩
      ⟨Real.cos r.z * Real.sin r.y * Real.sin r.x - Real.sin r.z * Real.cos r.x,
        Real.sin r.z * Real.sin r.y * Real.sin r.x + Real.cos r.z * Real.cos r.x,
        Real.cos r.y * Real.sin r.x⟩
      ⟨Real.cos r.z * Real.sin r.y * Real.cos r.x + Real.sin r.z * Real.sin r.x,
        Real.sin r.z * Real.sin r.y * Real.cos r.x - Real.cos r.z * Real.sin r.x,
        Real.cos r.y * Real.cos r.x⟩
      s.x s.y s.z
      rfl rfl rfl rfl rfl rfl rfl rfl rfl rfl rfl rfl rfl
      hsx hsy hsz
      (by show (Real.cos r.z * Real.cos r.y) * (Real.cos r.z * Real.cos r.y)
            + (Real.sin r.z * Real.cos r.y) * (Real.sin r.z * Real.cos r.y)
            + (-Real.sin r.y) * (-Real.sin r.y) = 1
          linear_combination Real.cos r.y ^ 2 * hz + hy)
      (by simp only [dot3]
          linear_combination (Real.sin r.y ^ 2 * Real.sin r.x ^ 2 + Real.cos r.x ^ 2) * hz
            + Real.sin r.x ^ 2 * hy + hx)
      (by simp only [dot3]
          linear_combination (Real.sin r.y ^ 2 * Real.cos r.x ^ 2 + Real.sin r.x ^ 2) * hz
            + Real.cos r.x ^ 2 * hy + hx)
      (by simp only [dot3]
          linear_combination (Real.cos r.y * Real.sin r.y * Real.sin r.x) * hz)
      (by simp only [dot3]
          linear_combination (Real.cos r.y * Real.sin r.y * Real.cos r.x) * hz)
      (by simp only [dot3]
          linear_combination (Real.sin r.x * Real.cos r.x * (Real.sin r.y ^ 2 - 1)) * hz
            + (Real.sin r.x * Real.cos r.x) * hy)
      (by simp only [dot3, cross3]
          linear_combination ((Real.sin r.y ^ 2 + Real.cos r.y ^ 2)
              * (Real.sin r.z ^ 2 + Real.cos r.z ^ 2)) * hx
            + (Real.sin r.z ^ 2 + Real.cos r.z ^ 2) * hy + hz)
  have hang := dm_angles_of_trig (trs_matrix p r s) r.x r.y r.z hrx hry hrz hv0 hv1 hv2
  rw [decompose_matrix.eq_def, htr, hscale, hang, hsh0, hsh1, hsh2]

/-- C1 (amended: the scale components must be positive, not merely nonzero):
for every position `p`, Euler rotation `r` with each component strictly inside
(-90°, 90°), and scale `s` with all components positive, decomposing the world
matrix composed from `(p, r, s)` — compose as in `_recompose_transform`,
decompose as the `trimesh.transformations.decompose_matrix` call of the
rotate-drag path — returns position, rotation and scale within `1e-4` of
`(p, r, s)` on every component (in fact exactly, over the reals). -/
theorem round_trip_c1 (p r s : Vec3)
    (hrx : |r.x| < Real.pi / 2) (hry : |r.y| < Real.pi / 2) (hrz : |r.z| < Real.pi / 2)
    (hsx : 0 < s.x) (hsy : 0 < s.y) (hsz : 0 < s.z) :
    |(decompose_matrix (recompose_transform p r s)).translate.x - p.x| ≤ 1e-4 ∧
    |(decompose_matrix (recompose_transform p r s)).translate.y - p.y| ≤ 1e-4 ∧
    |(decompose_matrix (recompose_transform p r s)).translate.z - p.z| ≤ 1e-4 ∧
    |(decompose_matrix (recompose_transform p r s)).angles.x - r.x| ≤ 1e-4 ∧
    |(decompose_matrix (recompose_transform p r s)).angles.y - r.y| ≤ 1e-4 ∧
    |(decompose_matrix (recompose_transform p r s)).angles.z - r.z| ≤ 1e-4 ∧
    |(decompose_matrix (recompose_transform p r s)).scale.x - s.x| ≤ 1e-4 ∧
    |(decompose_matrix (recompose_transform p r s)).scale.y - s.y| ≤ 1e-4 ∧
    |(decompose_matrix (recompose_transform p r s)).scale.z - s.z| ≤ 1e-4 := by
  rw [decompose_recompose_exact p r s hrx hry hrz hsx hsy hsz]
  norm_num

/-- Witness for `round_trip_c1` at `p = (1,2,3)`, `r = (0,0,0)`, `s = (1,1,1)`. -/
theorem round_trip_c1_witness :
    |((⟨0, 0, 0⟩ : Vec3)).x| < Real.pi / 2 ∧ (0 : ℝ) < ((⟨1, 1, 1⟩ : Vec3)).x ∧
    |(decompose_matrix (recompose_transform ⟨1, 2, 3⟩ ⟨0, 0, 0⟩ ⟨1, 1, 1⟩)).translate.x
      - (⟨1, 2, 3⟩ : Vec3).x| ≤ 1e-4 := by
  have habs : |((⟨0, 0, 0⟩ : Vec3)).x| < Real.pi / 2 := by
    show |(0 : ℝ)| < _
    rw [abs_zero]
    exact half_pos Real.pi_pos
  exact ⟨habs, one_pos,
    (round_trip_c1 ⟨1, 2, 3⟩ ⟨0, 0, 0⟩ ⟨1, 1, 1⟩ habs habs habs one_pos one_pos one_pos).1⟩

theorem dm_scaleF_negdiag :
    dm_scaleF (Matrix.of ![![(-1 : ℝ), 0, 0, 0], ![0, 1, 0, 0],
      ![0, 0, 1, 0], ![0, 0, 0, 1]]) = ⟨-1, -1, -1⟩ := by
  set B : Mat4 := Matrix.of ![![(-1 : ℝ), 0, 0, 0], ![0, 1, 0, 0],
    ![0, 0, 1, 0], ![0, 0, 0, 1]] with hB
  have hr0 : dm_row0 B = ⟨-1, 0, 0⟩ := by
    rw [dm_row0, show B 0 0 = -1 from rfl, show B 1 0 = 0 from rfl,
      show B 2 0 = 0 from rfl, show B 3 3 = 1 from rfl]
    norm_num
  have hsc0 : dm_scale0 B = 1 := by
    rw [dm_scale0, hr0, norm3]
    norm_num
  have hu0 : dm_u0 B = ⟨-1, 0, 0⟩ := by
    rw [dm_u0, hsc0, hr0]
    norm_num
  have hr1 : dm_row1 B = ⟨0, 1, 0⟩ := by
    rw [dm_row1, show B 0 1 = 0 from rfl, show B 1 1 = 1 from rfl,
      show B 2 1 = 0 from rfl, show B 3 3 = 1 from rfl]
    norm_num
  have hsh0x : dm_shear0x B = 0 := by
    rw [dm_shear0x, hu0, hr1]
    show (-1 : ℝ) * 0 + 0 * 1 + 0 * 0 = 0
    norm_num
  have hw1 : dm_w1 B = ⟨0, 1, 0⟩ := by
    rw [dm_w1, hr1, hsh0x, hu0]
    norm_num
  have hsc1 : dm_scale1 B = 1 := by
    rw [dm_scale1, hw1, norm3]
    norm_num
  have hu1 : dm_u1 B = ⟨0, 1, 0⟩ := by
    rw [dm_u1, hsc1, hw1]
    norm_num
  have hr2 : dm_row2 B = ⟨0, 0, 1⟩ := by
    rw [dm_row2, show B 0 2 = 0 from rfl, show B 1 2 = 0 from rfl,
      show B 2 2 = 1 from rfl, show B 3 3 = 1 from rfl]
    norm_num
  have hsh1x : dm_shear1x B = 0 := by
    rw [dm_shear1x, hu0, hr2]
    show (-1 : ℝ) * 0 + 0 * 0 + 0 * 1 = 0
    norm_num
  have hw2 : dm_w2 B = ⟨0, 0, 1⟩ := by
    rw [dm_w2, hr2, hsh1x, hu0]
    norm_num
  have hsh2x : dm_shear2x B = 0 := by
    rw [dm_shear2x, hu1, hw2]
    show (0 : ℝ) * 0 + 1 * 0 + 0 * 1 = 0
    norm_num
  have hw2b : dm_w2b B = ⟨0, 0, 1⟩ := by
    rw [dm_w2b, hw2, hsh2x, hu1]
    norm_num
  have hsc2 : dm_scale2 B = 1 := by
    rw [dm_scale2, hw2b, norm3]
    norm_num
  have hu2 : dm_u2 B = ⟨0, 0, 1⟩ := by
    rw [dm_u2, hsc2, hw2b]
    norm_num
  have hdet : dm_det B = -1 := by
    rw [dm_det, hu0, hu1, hu2]
    show (-1 : ℝ) * (1 * 1 - 0 * 0) + 0 * (0 * 0 - 0 * 1) + 0 * (0 * 0 - 1 * 0) = -1
    norm_num
  rw [dm_scaleF, if_pos (by rw [hdet]; norm_num), hsc0, hsc1, hsc2]

/-- Counterexample to C1 as stated: with the nonzero (but negative) scale
`s = (-1, 1, 1)`, zero rotation and zero position, the decomposition of the
composed matrix returns scale `(-1, -1, -1)`: its y component differs from
`s.y = 1` by 2, far outside the 1e-4 tolerance. -/
theorem round_trip_c1_counterexample :
    ¬ (|(decompose_matrix (recompose_transform ⟨0, 0, 0⟩ ⟨0, 0, 0⟩ ⟨-1, 1, 1⟩)).scale.y
        - (⟨-1, 1, 1⟩ : Vec3).y| ≤ 1e-4) := by
  have hA : recompose_transform ⟨0, 0, 0⟩ ⟨0, 0, 0⟩ ⟨-1, 1, 1⟩ =
      Matrix.of ![![(-1 : ℝ), 0, 0, 0], ![0, 1, 0, 0], ![0, 0, 1, 0], ![0, 0, 0, 1]] := by
    rw [show recompose_transform ⟨0, 0, 0⟩ ⟨0, 0, 0⟩ ⟨-1, 1, 1⟩ =
        trs_matrix ⟨0, 0, 0⟩ ⟨0, 0, 0⟩ ⟨-1, 1, 1⟩ from compose_matrix_eq _ _ _]
    ext i j
    fin_cases i <;> fin_cases j <;>
      simp [trs_matrix, Matrix.vecHead, Matrix.vecTail]
  have hscale : (decompose_matrix (recompose_transform ⟨0, 0, 0⟩ ⟨0, 0, 0⟩ ⟨-1, 1, 1⟩)).scale
      = ⟨-1, -1, -1⟩ := by
    rw [decompose_matrix.eq_def, hA]
    exact dm_scaleF_negdiag
  rw [hscale]
  show ¬ (|(-1 : ℝ) - 1| ≤ 1e-4)
  norm_num

/-- `math.radians`: degrees to radians. -/
noncomputable def radians (deg : ℝ) : ℝ := deg * Real.pi / 180

/-- `update_mass_from_ui`: the result of `float(self.mass_var.get())` is
modelled as `Option ℝ` (`none` when the string raises `ValueError`, in which
case the handler ignores the input).  A parsed value below zero is replaced by
the minimum mass `0.1`. -/
noncomputable def update_mass_from_ui (field : Option ℝ) (mass : ℝ) : ℝ :=
  match field with
  | none => mass
  | some v => if v < 0 then 0.1 else v

/-- C10: after `update_mass_from_ui` with an object selected, the selected
object's mass is never negative (given it was not negative before): a field
parsing to a negative number is replaced by `0.1` (not clamped to 0), and a
non-numeric field leaves the mass unchanged. -/
theorem update_mass_c10 (field : Option ℝ) (mass : ℝ) (h : 0 ≤ mass) :
    0 ≤ update_mass_from_ui field mass ∧
    (∀ v : ℝ, field = some v →
      update_mass_from_ui field mass = if v < 0 then 0.1 else v) ∧
    (field = none → update_mass_from_ui field mass = mass) := by
  refine ⟨?_, ?_, ?_⟩
  · cases field with
    | none => exact h
    | some v =>
      show (0 : ℝ) ≤ if v < 0 then 0.1 else v
      split_ifs with hv
      · norm_num
      · exact not_lt.mp hv
  · intro v hv
    rw [hv]
    rfl
  · intro hv
    rw [hv]
    rfl

/-- Witness for `update_mass_c10`: prior mass 1, field parsing to `-5`
(mass becomes 0.1). -/
theorem update_mass_c10_witness :
    (0 : ℝ) ≤ 1 ∧
    (0 ≤ update_mass_from_ui (some (-5)) 1 ∧
      (∀ v : ℝ, some (-5 : ℝ) = some v →
        update_mass_from_ui (some (-5)) 1 = if v < 0 then 0.1 else v) ∧
      (some (-5 : ℝ) = none → update_mass_from_ui (some (-5)) 1 = 1)) :=
  ⟨by norm_num, update_mass_c10 (some (-5)) 1 (by norm_num)⟩

/-- The nine text variables read by `_update_transform_from_ui`; each models
the result of `float(var.get())` (`none` = `ValueError`). -/
structure UITransformFields where
  pos_x : Option ℝ
  pos_y : Option ℝ
  pos_z : Option ℝ
  rot_x : Option ℝ
  rot_y : Option ℝ
  rot_z : Option ℝ
  scale_x : Option ℝ
  scale_y : Option ℝ
  scale_z : Option ℝ

/-- The transform fields of a scene-object dict (`model_draw_list` entry),
together with the enemy fields read by the physics/AI step. -/
structure SceneObject where
  position : Vec3
  rotation : Vec3
  scale : Vec3
  is_enemy : Bool
  enemy_speed : ℝ

/-- `_update_transform_from_ui`: the `try` block parses and assigns position,
rotation (degrees converted with `math.radians`) and scale in that order; a
`ValueError` (non-numeric field) aborts the remaining assignments and is
swallowed.  Each vector is assigned only after all three of its floats parse.
The colour-slider writes always succeed and do not touch the transform, so
they are outside this model. -/
noncomputable def update_transform_from_ui (ui : UITransformFields)
    (part : SceneObject) : SceneObject :=
  match ui.pos_x, ui.pos_y, ui.pos_z with
  | some px, some py, some pz =>
    let part1 := { part with position := (⟨px, py, pz⟩ : Vec3) }
    match ui.rot_x, ui.rot_y, ui.rot_z with
    | some rx, some ry, some rz =>
      let part2 := { part1 with
        rotation := (⟨radians rx, radians ry, radians rz⟩ : Vec3) }
      match ui.scale_x, ui.scale_y, ui.scale_z with
      | some sx, some sy, some sz => { part2 with scale := (⟨sx, sy, sz⟩ : Vec3) }
      | _, _, _ => part2
    | _, _, _ => part1
  | _, _, _ => part

/-- C9 (amended): the edit is not atomic; the fields are applied as three
groups in source order — position, rotation, scale.  A non-numeric field
aborts the update at its group: the groups fully parsed before it take
effect, the failing group and all later groups retain their prior values
(each group is itself assigned only after all three of its components
parse). -/
theorem update_transform_c9 (ui : UITransformFields) (part : SceneObject) :
    ((update_transform_from_ui ui part).position =
      (match ui.pos_x, ui.pos_y, ui.pos_z with
       | some px, some py, some pz => (⟨px, py, pz⟩ : Vec3)
       | _, _, _ => part.position)) ∧
    ((update_transform_from_ui ui part).rotation =
      (match ui.pos_x, ui.pos_y, ui.pos_z, ui.rot_x, ui.rot_y, ui.rot_z with
       | some _, some _, some _, some rx, some ry, some rz =>
          (⟨radians rx, radians ry, radians rz⟩ : Vec3)
       | _, _, _, _, _, _ => part.rotation)) ∧
    ((update_transform_from_ui ui part).scale =
      (match ui.pos_x, ui.pos_y, ui.pos_z, ui.rot_x, ui.rot_y, ui.rot_z,
          ui.scale_x, ui.scale_y, ui.scale_z with
       | some _, some _, some _, some _, some _, some _, some sx, some sy, some sz =>
          (⟨sx, sy, sz⟩ : Vec3)
       | _, _, _, _, _, _, _, _, _ => part.scale)) := by
  obtain ⟨p1, p2, p3, r1, r2, r3, s1, s2, s3⟩ := ui
  cases p1 <;> cases p2 <;> cases p3 <;> cases r1 <;> cases r2 <;> cases r3 <;>
    cases s1 <;> cases s2 <;> cases s3 <;>
      simp [update_transform_from_ui]

/-- Counterexample to C9 as stated: all position and scale fields numeric,
`rot_x` non-numeric.  The resulting update is partial — position changes to
the new value while the (numeric) scale fields are ignored and scale keeps its
prior value — contradicting "either every field of the edit takes effect or
none does". -/
theorem update_transform_c9_counterexample :
    (update_transform_from_ui
        ⟨some 1, some 1, some 1, none, some 0, some 0, some 2, some 2, some 2⟩
        ⟨⟨0, 0, 0⟩, ⟨0, 0, 0⟩, ⟨1, 1, 1⟩, false, 1⟩).position ≠
      (⟨⟨0, 0, 0⟩, ⟨0, 0, 0⟩, ⟨1, 1, 1⟩, false, 1⟩ : SceneObject).position ∧
    (update_transform_from_ui
        ⟨some 1, some 1, some 1, none, some 0, some 0, some 2, some 2, some 2⟩
        ⟨⟨0, 0, 0⟩, ⟨0, 0, 0⟩, ⟨1, 1, 1⟩, false, 1⟩).scale =
      (⟨⟨0, 0, 0⟩, ⟨0, 0, 0⟩, ⟨1, 1, 1⟩, false, 1⟩ : SceneObject).scale := by
  constructor
  · show (⟨1, 1, 1⟩ : Vec3) ≠ ⟨0, 0, 0⟩
    simp [Vec3.mk.injEq]
  · rfl

/-- The air-resistance factor `0.98 + mass * 0.001` of
`_update_rigidbody_physics` (source comment: heavier objects less affected
by air). -/
def air_resistance (mass : ℝ) : ℝ := 0.98 + mass * 0.001

/-- The damping step `physics_obj['velocity'] *= air_resistance`. -/
def apply_air_resistance (mass : ℝ) (v : Vec3) : Vec3 := air_resistance mass • v

/-- Speed lost to the air-resistance damping in one step. -/
noncomputable def air_speed_loss (mass : ℝ) (v : Vec3) : ℝ :=
  norm3 v - norm3 (apply_air_resistance mass v)

theorem norm3_smul_of_nonneg (c : ℝ) (hc : 0 ≤ c) (v : Vec3) :
    norm3 (c • v) = c * norm3 v := by
  show Real.sqrt ((c * v.x) ^ 2 + (c * v.y) ^ 2 + (c * v.z) ^ 2) = c * norm3 v
  rw [show (c * v.x) ^ 2 + (c * v.y) ^ 2 + (c * v.z) ^ 2
      = c ^ 2 * (v.x ^ 2 + v.y ^ 2 + v.z ^ 2) by ring,
    Real.sqrt_mul (sq_nonneg c), Real.sqrt_sq hc, norm3]

/-- C6 (amended: the direction of the comparison is reversed): with equal
velocity before damping and `0 ≤ m1 ≤ m2`, the heavier body loses no more
speed to the air-resistance damping than the lighter body — lighter bodies
are damped *more*, exactly as the source comment says ("lighter objects
affected more"). -/
theorem air_resistance_c6 (v : Vec3) (m1 m2 : ℝ) (h0 : 0 ≤ m1) (h12 : m1 ≤ m2) :
    air_speed_loss m2 v ≤ air_speed_loss m1 v := by
  have h1 : 0 ≤ air_resistance m1 := by
    have : 0 ≤ m1 * 0.001 := mul_nonneg h0 (by norm_num)
    unfold air_resistance
    linarith
  have h2 : 0 ≤ air_resistance m2 := by
    have : 0 ≤ m2 * 0.001 := mul_nonneg (h0.trans h12) (by norm_num)
    unfold air_resistance
    linarith
  rw [air_speed_loss, air_speed_loss, apply_air_resistance, apply_air_resistance,
    norm3_smul_of_nonneg _ h1, norm3_smul_of_nonneg _ h2]
  unfold air_resistance
  nlinarith [mul_nonneg (sub_nonneg.mpr h12) (norm3_nonneg v)]

/-- Witness for `air_resistance_c6` at `m1 = 1`, `m2 = 2`, `v = (1,0,0)`. -/
theorem air_resistance_c6_witness :
    (0 : ℝ) ≤ 1 ∧ (1 : ℝ) ≤ 2 ∧
    air_speed_loss 2 ⟨1, 0, 0⟩ ≤ air_speed_loss 1 ⟨1, 0, 0⟩ :=
  ⟨by norm_num, by norm_num, air_resistance_c6 ⟨1, 0, 0⟩ 1 2 (by norm_num) (by norm_num)⟩

/-- Counterexample to C6 as stated: masses 1 < 2 with equal unit velocity.
The lighter body loses speed `1 - 0.981 = 0.019`, the heavier only
`1 - 0.982 = 0.018`, so the lighter body loses strictly *more* — the claim
"the lighter body loses no more speed than the heavier" is false. -/
theorem air_resistance_c6_counterexample :
    ¬ (air_speed_loss 1 ⟨1, 0, 0⟩ ≤ air_speed_loss 2 ⟨1, 0, 0⟩) := by
  have hv : norm3 ⟨(1 : ℝ), 0, 0⟩ = 1 := by
    rw [norm3]
    norm_num
  have h1 : apply_air_resistance 1 ⟨1, 0, 0⟩ = ⟨0.981, 0, 0⟩ := by
    rw [apply_air_resistance, air_resistance]
    norm_num
  have h2 : apply_air_resistance 2 ⟨1, 0, 0⟩ = ⟨0.982, 0, 0⟩ := by
    rw [apply_air_resistance, air_resistance]
    norm_num
  have n1 : norm3 ⟨(0.981 : ℝ), 0, 0⟩ = 0.981 := by
    rw [norm3, show ((0.981 : ℝ)) ^ 2 + (0 : ℝ) ^ 2 + (0 : ℝ) ^ 2 = 0.981 ^ 2 by norm_num,
      Real.sqrt_sq (by norm_num)]
  have n2 : norm3 ⟨(0.982 : ℝ), 0, 0⟩ = 0.982 := by
    rw [norm3, show ((0.982 : ℝ)) ^ 2 + (0 : ℝ) ^ 2 + (0 : ℝ) ^ 2 = 0.982 ^ 2 by norm_num,
      Real.sqrt_sq (by norm_num)]
  rw [air_speed_loss, air_speed_loss, h1, h2, hv, n1, n2]
  norm_num

/-- The `physics_type` strings of objects that enter `physics_objects`
(`_initialize_physics` skips `'None'`). -/
inductive PhysicsType where
  | Static
  | RigidBody
  deriving DecidableEq

/-- The `physics_shape` strings. -/
inductive PhysShape where
  | Cube
  | Sphere
  | Cylinder
  | Capsule
  | Cone
  | Mesh
  | Plane2D
  deriving DecidableEq

/-- The `bounds` dict of a physics object as built by
`_calculate_physics_bounds`: world-space AABB corners, size, shape tag and the
optional shape-specific entries (`.get` with a default models the dict
lookup). -/
structure Bounds where
  min : Vec3
  max : Vec3
  size : Vec3
  shape : PhysShape
  radius : Option ℝ
  height : Option ℝ

/-- A `physics_objects` entry as built by `_initialize_physics`. -/
structure PhysicsObj where
  index : Nat
  type : PhysicsType
  position : Vec3
  velocity : Vec3
  angular_velocity : Vec3
  mass : ℝ
  bounds : Bounds

/-- `_apply_player_push_force(physics_obj, player_pos)`.  `rand` models the
draw `np.random.random()` used only for the angular nudge.  The push
direction is the XZ vector from the player to the object, normalized; the
strength is `min(2.0, player_mass / (mass + 1.0))` with `player_mass = 70`;
the applied force is that unit direction times `strength * 0.1`, plus a
`0.05` upward nudge for masses below 5. -/
noncomputable def apply_player_push_force (obj : PhysicsObj) (player_pos : Vec3)
    (rand : ℝ) : PhysicsObj :=
  let push_x := obj.position.x - player_pos.x
  let push_z := obj.position.z - player_pos.z
  let distance := Real.sqrt (push_x ^ 2 + push_z ^ 2)
  if 0.001 < distance then
    let ux := push_x / distance
    let uz := push_z / distance
    let push_strength := min 2.0 (70.0 / (obj.mass + 1.0))
    let v1 := obj.velocity
      + (⟨ux * push_strength * 0.1, 0 * push_strength * 0.1, uz * push_strength * 0.1⟩ : Vec3)
    let v2 := if obj.mass < 5.0 then (⟨v1.x, v1.y + 0.05, v1.z⟩ : Vec3) else v1
    { obj with
      velocity := v2
      angular_velocity := ⟨obj.angular_velocity.x,
        obj.angular_velocity.y + (rand - 0.5) * 0.2, obj.angular_velocity.z⟩ }
  else obj

theorem push_velocity_far (obj : PhysicsObj) (player_pos : Vec3) (rand : ℝ)
    (hd : 0.001 < Real.sqrt ((obj.position.x - player_pos.x) ^ 2
      + (obj.position.z - player_pos.z) ^ 2)) :
    (apply_player_push_force obj player_pos rand).velocity.x
      = obj.velocity.x + (obj.position.x - player_pos.x)
        / Real.sqrt ((obj.position.x - player_pos.x) ^ 2
          + (obj.position.z - player_pos.z) ^ 2)
        * min 2.0 (70.0 / (obj.mass + 1.0)) * 0.1 ∧
    (apply_player_push_force obj player_pos rand).velocity.z
      = obj.velocity.z + (obj.position.z - player_pos.z)
        / Real.sqrt ((obj.position.x - player_pos.x) ^ 2
          + (obj.position.z - player_pos.z) ^ 2)
        * min 2.0 (70.0 / (obj.mass + 1.0)) * 0.1 := by
  rw [apply_player_push_force]
  simp only [if_pos hd]
  split_ifs <;> simp [Vec3.add_def]

theorem push_velocity_near (obj : PhysicsObj) (player_pos : Vec3) (rand : ℝ)
    (hd : ¬ 0.001 < Real.sqrt ((obj.position.x - player_pos.x) ^ 2
      + (obj.position.z - player_pos.z) ^ 2)) :
    apply_player_push_force obj player_pos rand = obj := by
  rw [apply_player_push_force]
  simp only [if_neg hd]

/-- C5: one player push changes the horizontal velocity along the
player-to-object direction (a nonnegative multiple of it), with magnitude at
most `min(2.0, 70 / (mass + 1)) * 0.1`; when the horizontal distance exceeds
the 0.001 guard the gained velocity along the push direction is strictly
positive. -/
theorem push_force_c5 (obj : PhysicsObj) (player_pos : Vec3) (rand : ℝ)
    (hm : 0 ≤ obj.mass) :
    (∃ c : ℝ, 0 ≤ c ∧
      (apply_player_push_force obj player_pos rand).velocity.x - obj.velocity.x
        = c * (obj.position.x - player_pos.x) ∧
      (apply_player_push_force obj player_pos rand).velocity.z - obj.velocity.z
        = c * (obj.position.z - player_pos.z)) ∧
    Real.sqrt (((apply_player_push_force obj player_pos rand).velocity.x
        - obj.velocity.x) ^ 2
      + ((apply_player_push_force obj player_pos rand).velocity.z
        - obj.velocity.z) ^ 2)
      ≤ min 2.0 (70.0 / (obj.mass + 1.0)) * 0.1 ∧
    (0.001 < Real.sqrt ((obj.position.x - player_pos.x) ^ 2
        + (obj.position.z - player_pos.z) ^ 2) →
      0 < ((apply_player_push_force obj player_pos rand).velocity.x - obj.velocity.x)
            * (obj.position.x - player_pos.x)
        + ((apply_player_push_force obj player_pos rand).velocity.z - obj.velocity.z)
            * (obj.position.z - player_pos.z)) := by
  have hstr : 0 < min 2.0 (70.0 / (obj.mass + 1.0)) := by
    have hm1 : (0 : ℝ) < obj.mass + 1.0 := by linarith
    exact lt_min (by norm_num) (div_pos (by norm_num) hm1)
  by_cases hd : 0.001 < Real.sqrt ((obj.position.x - player_pos.x) ^ 2
      + (obj.position.z - player_pos.z) ^ 2)
  · obtain ⟨hvx, hvz⟩ := push_velocity_far obj player_pos rand hd
    set px := obj.position.x - player_pos.x with hpx
    set pz := obj.position.z - player_pos.z with hpz
    set d := Real.sqrt (px ^ 2 + pz ^ 2) with hdd
    have hdpos : 0 < d := lt_trans (by norm_num) hd
    have hd2 : d ^ 2 = px ^ 2 + pz ^ 2 := Real.sq_sqrt (by positivity)
    set str := min 2.0 (70.0 / (obj.mass + 1.0)) with hstrd
    have hΔx : (apply_player_push_force obj player_pos rand).velocity.x
        - obj.velocity.x = px / d * str * 0.1 := by rw [hvx]; ring
    have hΔz : (apply_player_push_force obj player_pos rand).velocity.z
        - obj.velocity.z = pz / d * str * 0.1 := by rw [hvz]; ring
    refine ⟨⟨str * 0.1 / d, by positivity, ?_, ?_⟩, ?_, ?_⟩
    · rw [hΔx]; field_simp; ring
    · rw [hΔz]; field_simp; ring
    · rw [hΔx, hΔz]
      have hsum : (px / d * str * 0.1) ^ 2 + (pz / d * str * 0.1) ^ 2
          = (str * 0.1) ^ 2 := by
        have e1 : (px / d * str * 0.1) ^ 2 + (pz / d * str * 0.1) ^ 2
            = (px ^ 2 + pz ^ 2) / d ^ 2 * (str * 0.1) ^ 2 := by ring
        rw [e1, ← hd2, div_self (pow_ne_zero 2 hdpos.ne'), one_mul]
      rw [hsum, Real.sqrt_sq (by positivity)]
    · intro _
      rw [hΔx, hΔz]
      have e2 : px / d * str * 0.1 * px + pz / d * str * 0.1 * pz
          = (px ^ 2 + pz ^ 2) / d * (str * 0.1) := by ring
      rw [e2, ← hd2, sq, mul_div_assoc, div_self hdpos.ne', mul_one]
      positivity
  · rw [push_velocity_near obj player_pos rand hd]
    refine ⟨⟨0, le_refl 0, by ring, by ring⟩, ?_, fun h => absurd h hd⟩
    simp only [sub_self]
    rw [show (0 : ℝ) ^ 2 + (0 : ℝ) ^ 2 = 0 by norm_num, Real.sqrt_zero]
    positivity

/-- Witness for `push_force_c5`: a RigidBody of mass 1 at `(1,0,0)` pushed by
a player at the origin (push direction `(+1, 0)` in XZ). -/
theorem push_force_c5_witness :
    (0 : ℝ) ≤ (1 : ℝ) ∧
    (∃ c : ℝ, 0 ≤ c ∧
      (apply_player_push_force
        ⟨0, .RigidBody, ⟨1, 0, 0⟩, ⟨0, 0, 0⟩, ⟨0, 0, 0⟩, 1,
          ⟨⟨0, 0, 0⟩, ⟨0, 0, 0⟩, ⟨0, 0, 0⟩, .Cube, none, none⟩⟩
        ⟨0, 0, 0⟩ 0).velocity.x - (⟨0, 0, 0⟩ : Vec3).x
        = c * ((⟨1, 0, 0⟩ : Vec3).x - (⟨0, 0, 0⟩ : Vec3).x) ∧
      (apply_player_push_force
        ⟨0, .RigidBody, ⟨1, 0, 0⟩, ⟨0, 0, 0⟩, ⟨0, 0, 0⟩, 1,
          ⟨⟨0, 0, 0⟩, ⟨0, 0, 0⟩, ⟨0, 0, 0⟩, .Cube, none, none⟩⟩
        ⟨0, 0, 0⟩ 0).velocity.z - (⟨0, 0, 0⟩ : Vec3).z
        = c * ((⟨1, 0, 0⟩ : Vec3).z - (⟨0, 0, 0⟩ : Vec3).z)) :=
  ⟨by norm_num,
    (push_force_c5
      ⟨0, .RigidBody, ⟨1, 0, 0⟩, ⟨0, 0, 0⟩, ⟨0, 0, 0⟩, 1,
        ⟨⟨0, 0, 0⟩, ⟨0, 0, 0⟩, ⟨0, 0, 0⟩, .Cube, none, none⟩⟩
      ⟨0, 0, 0⟩ 0 (by norm_num)).1⟩

/-- A `scene_backup` entry of `_backup_scene`: copies of the three transform
arrays of one scene object. -/
structure TransformBackup where
  position : Vec3
  rotation : Vec3
  scale : Vec3

/-- `_backup_scene`: one backup entry per `model_draw_list` object, in order. -/
def backup_scene (scene : List SceneObject) : List TransformBackup :=
  scene.map fun obj =>
    { position := obj.position, rotation := obj.rotation, scale := obj.scale }

/-- The write-back loop of `_restore_scene`
(`for i, backup_obj in enumerate(self.scene_backup): if i < len(...)`):
pairs backup entry `i` with scene entry `i` while both exist; scene entries
beyond the backup keep their current values. -/
def restore_loop : List TransformBackup → List SceneObject → List SceneObject
  | [], scene => scene
  | _ :: _, [] => []
  | b :: bs, o :: os =>
      { o with position := b.position, rotation := b.rotation, scale := b.scale }
        :: restore_loop bs os

/-- `_restore_scene`: the `if self.scene_backup:` guard, then the loop. -/
def restore_scene (backup : List TransformBackup) (scene : List SceneObject) :
    List SceneObject :=
  if backup.isEmpty then scene else restore_loop backup scene

theorem restore_loop_spec (scene : List SceneObject) :
    ∀ (mutated : List SceneObject), mutated.length = scene.length →
    (restore_loop (backup_scene scene) mutated).length = scene.length ∧
    ∀ (i : ℕ) (h1 : i < (restore_loop (backup_scene scene) mutated).length)
      (h2 : i < scene.length),
      ((restore_loop (backup_scene scene) mutated).get ⟨i, h1⟩).position
          = (scene.get ⟨i, h2⟩).position ∧
      ((restore_loop (backup_scene scene) mutated).get ⟨i, h1⟩).rotation
          = (scene.get ⟨i, h2⟩).rotation ∧
      ((restore_loop (backup_scene scene) mutated).get ⟨i, h1⟩).scale
          = (scene.get ⟨i, h2⟩).scale := by
  induction scene with
  | nil =>
    intro mutated hlen
    have : mutated = [] := List.length_eq_zero.mp hlen
    subst this
    exact ⟨rfl, fun i h1 h2 => absurd h2 (Nat.not_lt_zero i)⟩
  | cons s ss ih =>
    intro mutated hlen
    cases mutated with
    | nil => exact absurd hlen.symm (by simp)
    | cons m ms =>
      have hms : ms.length = ss.length := by simpa using hlen
      obtain ⟨ihlen, ihget⟩ := ih ms hms
      constructor
      · simpa [backup_scene, restore_loop] using ihlen
      · intro i h1 h2
        cases i with
        | zero => exact ⟨rfl, rfl, rfl⟩
        | succ n =>
          have h1' : n < (restore_loop (backup_scene ss) ms).length := by
            simpa [backup_scene, restore_loop] using h1
          have h2' : n < ss.length := by simpa using h2
          exact ihget n h1' h2'

/-- C3: toggling physics off restores every scene object's position, rotation
and scale exactly to the snapshot taken at toggle-on
(`_backup_scene` then `_restore_scene`), whatever the physics stepper, player
pushes or enemy AI did to the scene objects in between (any length-preserving
in-place mutation `mutated` of the original scene list). -/
theorem toggle_physics_restore_c3 (scene mutated : List SceneObject)
    (hlen : mutated.length = scene.length) :
    (restore_scene (backup_scene scene) mutated).length = scene.length ∧
    ∀ (i : ℕ) (h1 : i < (restore_scene (backup_scene scene) mutated).length)
      (h2 : i < scene.length),
      ((restore_scene (backup_scene scene) mutated).get ⟨i, h1⟩).position
          = (scene.get ⟨i, h2⟩).position ∧
      ((restore_scene (backup_scene scene) mutated).get ⟨i, h1⟩).rotation
          = (scene.get ⟨i, h2⟩).rotation ∧
      ((restore_scene (backup_scene scene) mutated).get ⟨i, h1⟩).scale
          = (scene.get ⟨i, h2⟩).scale := by
  cases scene with
  | nil =>
    have : mutated = [] := List.length_eq_zero.mp hlen
    subst this
    exact ⟨rfl, fun i h1 h2 => absurd h2 (Nat.not_lt_zero i)⟩
  | cons s ss =>
    have hne : ¬ (backup_scene (s :: ss)).isEmpty := by simp [backup_scene]
    rw [restore_scene, if_neg hne]
    exact restore_loop_spec (s :: ss) mutated hlen

/-- Witness for `toggle_physics_restore_c3`: one object moved and rotated by
the simulation; restoring brings its transform back. -/
theorem toggle_physics_restore_c3_witness :
    ([(⟨⟨5, 6, 7⟩, ⟨1, 1, 1⟩, ⟨2, 2, 2⟩, false, 1⟩ : SceneObject)].length
      = [(⟨⟨0, 0, 0⟩, ⟨0, 0, 0⟩, ⟨1, 1, 1⟩, false, 1⟩ : SceneObject)].length) ∧
    (restore_scene
        (backup_scene [(⟨⟨0, 0, 0⟩, ⟨0, 0, 0⟩, ⟨1, 1, 1⟩, false, 1⟩ : SceneObject)])
        [(⟨⟨5, 6, 7⟩, ⟨1, 1, 1⟩, ⟨2, 2, 2⟩, false, 1⟩ : SceneObject)]).length
      = [(⟨⟨0, 0, 0⟩, ⟨0, 0, 0⟩, ⟨1, 1, 1⟩, false, 1⟩ : SceneObject)].length :=
  ⟨rfl,
    (toggle_physics_restore_c3
      [(⟨⟨0, 0, 0⟩, ⟨0, 0, 0⟩, ⟨1, 1, 1⟩, false, 1⟩ : SceneObject)]
      [(⟨⟨5, 6, 7⟩, ⟨1, 1, 1⟩, ⟨2, 2, 2⟩, false, 1⟩ : SceneObject)] rfl).1⟩

/-- The gizmo handle axis names. -/
inductive GizmoAxis where
  | X
  | Y
  | Z
  deriving DecidableEq

/-- The `axis_map` of `_handle_drag_start` / `_handle_drag_update`. -/
def axis_vec : GizmoAxis → Vec3
  | .X => ⟨1, 0, 0⟩
  | .Y => ⟨0, 1, 0⟩
  | .Z => ⟨0, 0, 1⟩

/-- The two gizmo modes handled by `_handle_drag_update`. -/
inductive GizmoMode where
  | translate
  | rotate

/-- The drag-session state captured by `_handle_drag_start` plus the
`drag_start_vec` attribute cached lazily by the rotate branch. -/
structure DragState where
  active_gizmo_handle : Option GizmoAxis
  drag_start_position : Vec3
  drag_start_rotation : Vec3
  drag_start_scale : Vec3
  drag_start_transform : Mat4
  drag_start_obj_center : Vec3
  drag_plane_normal : Vec3
  drag_plane_point : Vec3
  drag_start_vec : Option Vec3

/-- `trimesh.transformations.unit_vector`: divide by the Euclidean norm. -/
noncomputable def unit_vector (v : Vec3) : Vec3 := (norm3 v)⁻¹ • v

/-- `trimesh.transformations.rotation_matrix angle direction` with
`point = None`: `diag(cosa) + outer(u,u)(1-cosa) + sina·skew(u)` on the unit
direction `u`, embedded in a 4x4 matrix. -/
noncomputable def rotation_matrix (angle : ℝ) (direction : Vec3) : Mat4 :=
  let sina := Real.sin angle
  let cosa := Real.cos angle
  let u := unit_vector direction
  Matrix.of ![![cosa + u.x * u.x * (1 - cosa), u.x * u.y * (1 - cosa) - u.z * sina,
                u.x * u.z * (1 - cosa) + u.y * sina, 0],
               ![u.y * u.x * (1 - cosa) + u.z * sina, cosa + u.y * u.y * (1 - cosa),
                u.y * u.z * (1 - cosa) - u.x * sina, 0],
               ![u.z * u.x * (1 - cosa) - u.y * sina, u.z * u.y * (1 - cosa) + u.x * sina,
                cosa + u.z * u.z * (1 - cosa), 0],
               ![0, 0, 0, 1]]

/-- The rotate-mode tail of `_handle_drag_update`, from `current_vec` on:
signed angle between start and current vector, rotation about the drag-plane
normal conjugated by the object-center translations, applied to the start
transform and decomposed back into position/rotation/scale
(`np.clip` is `min(max(·, -1), 1)`; Python `math.acos` is `Real.arccos`). -/
noncomputable def rotate_apply (ds : DragState) (start_vec intersection_point : Vec3)
    (part : SceneObject) : SceneObject × DragState :=
  let current_vec := intersection_point - ds.drag_start_obj_center
  if norm3 current_vec < 1e-6 then (part, ds)
  else
    let cu := (norm3 current_vec)⁻¹ • current_vec
    let angle0 := Real.arccos (min 1 (max (-1) (dot3 start_vec cu)))
    let cross_prod := cross3 start_vec cu
    let angle := if dot3 ds.drag_plane_normal cross_prod < 0 then -angle0 else angle0
    let T_to_origin := translation_matrix (-(ds.drag_start_obj_center))
    let T_from_origin := translation_matrix ds.drag_start_obj_center
    let R := rotation_matrix angle ds.drag_plane_normal
    let new_transform := T_from_origin * R * T_to_origin * ds.drag_start_transform
    let dec := decompose_matrix new_transform
    ({ part with
        position := dec.translate, rotation := dec.angles,
        scale := dec.scale }, ds)

/-- `_handle_drag_update(x, y)` given the already-cast ray: plane
intersection with the parallel-ray (`|denom| < 1e-6`) and behind-origin
(`t < 0`) rejections, then the translate projection or the rotate branch
(which caches `drag_start_vec` on first use, keeping the unnormalized vector
when it is degenerate, exactly as the attribute is left set in the source). -/
noncomputable def handle_drag_update (mode : GizmoMode) (ds : DragState)
    (ray_origin ray_direction : Vec3) (part : SceneObject) :
    SceneObject × DragState :=
  match ds.active_gizmo_handle with
  | none => (part, ds)
  | some handle =>
    let denom := dot3 ray_direction ds.drag_plane_normal
    if |denom| < 1e-6 then (part, ds)
    else
      let t := dot3 (ds.drag_plane_point - ray_origin) ds.drag_plane_normal / denom
      if t < 0 then (part, ds)
      else
        let intersection_point := ray_origin + t • ray_direction
        match mode with
        | .translate =>
          let axis_v := axis_vec handle
          let vec_from_center := intersection_point - ds.drag_start_obj_center
          let projection := dot3 vec_from_center axis_v • axis_v
          ({ part with position := ds.drag_start_position + projection }, ds)
        | .rotate =>
          match ds.drag_start_vec with
          | none =>
            let v := intersection_point - ds.drag_start_obj_center
            if norm3 v < 1e-6 then (part, { ds with drag_start_vec := some v })
            else
              let sv := (norm3 v)⁻¹ • v
              rotate_apply { ds with drag_start_vec := some sv } sv
                intersection_point part
          | some sv => rotate_apply ds sv intersection_point part

/-- C8: whenever the cast ray is near-parallel to the drag plane
(`|denom| < 1e-6`) or the plane intersection lies behind the ray origin
(`t < 0`), the drag update is skipped (no exception path exists in the
embedding) and the selected object's position, rotation and scale are left
unchanged, in either gizmo mode. -/
theorem drag_update_reject_c8 (mode : GizmoMode) (ds : DragState)
    (ray_origin ray_direction : Vec3) (part : SceneObject)
    (hrej : |dot3 ray_direction ds.drag_plane_normal| < 1e-6 ∨
      dot3 (ds.drag_plane_point - ray_origin) ds.drag_plane_normal
        / dot3 ray_direction ds.drag_plane_normal < 0) :
    (handle_drag_update mode ds ray_origin ray_direction part).1 = part := by
  rcases hh : ds.active_gizmo_handle with _ | handle
  · simp only [handle_drag_update, hh]
  · rcases hrej with h1 | h2
    · simp only [handle_drag_update, hh]
      rw [if_pos h1]
    · by_cases h1 : |dot3 ray_direction ds.drag_plane_normal| < 1e-6
      · simp only [handle_drag_update, hh]
        rw [if_pos h1]
      · simp only [handle_drag_update, hh]
        rw [if_neg h1, if_pos h2]

/-- Witness for `drag_update_reject_c8`: ray direction `(1,0,0)` is parallel
to a drag plane with normal `(0,0,1)` (`denom = 0`), so the update leaves the
object untouched. -/
theorem drag_update_reject_c8_witness :
    (|dot3 ⟨1, 0, 0⟩ (⟨some GizmoAxis.X, ⟨0, 0, 0⟩, ⟨0, 0, 0⟩, ⟨1, 1, 1⟩, 1,
        ⟨0, 0, 0⟩, ⟨0, 0, 1⟩, ⟨0, 0, 0⟩, none⟩ : DragState).drag_plane_normal| < 1e-6 ∨
      dot3 ((⟨some GizmoAxis.X, ⟨0, 0, 0⟩, ⟨0, 0, 0⟩, ⟨1, 1, 1⟩, 1,
        ⟨0, 0, 0⟩, ⟨0, 0, 1⟩, ⟨0, 0, 0⟩, none⟩ : DragState).drag_plane_point - ⟨0, 0, 5⟩)
        (⟨some GizmoAxis.X, ⟨0, 0, 0⟩, ⟨0, 0, 0⟩, ⟨1, 1, 1⟩, 1,
        ⟨0, 0, 0⟩, ⟨0, 0, 1⟩, ⟨0, 0, 0⟩, none⟩ : DragState).drag_plane_normal
        / dot3 ⟨1, 0, 0⟩ (⟨some GizmoAxis.X, ⟨0, 0, 0⟩, ⟨0, 0, 0⟩, ⟨1, 1, 1⟩, 1,
        ⟨0, 0, 0⟩, ⟨0, 0, 1⟩, ⟨0, 0, 0⟩, none⟩ : DragState).drag_plane_normal < 0) ∧
    (handle_drag_update .translate
      ⟨some GizmoAxis.X, ⟨0, 0, 0⟩, ⟨0, 0, 0⟩, ⟨1, 1, 1⟩, 1,
        ⟨0, 0, 0⟩, ⟨0, 0, 1⟩, ⟨0, 0, 0⟩, none⟩
      ⟨0, 0, 5⟩ ⟨1, 0, 0⟩ ⟨⟨0, 0, 0⟩, ⟨0, 0, 0⟩, ⟨1, 1, 1⟩, false, 1⟩).1
      = ⟨⟨0, 0, 0⟩, ⟨0, 0, 0⟩, ⟨1, 1, 1⟩, false, 1⟩ := by
  have hpar : |dot3 (⟨1, 0, 0⟩ : Vec3) (⟨0, 0, 1⟩ : Vec3)| < 1e-6 := by
    norm_num [dot3]
  exact ⟨Or.inl hpar,
    drag_update_reject_c8 .translate
      ⟨some GizmoAxis.X, ⟨0, 0, 0⟩, ⟨0, 0, 0⟩, ⟨1, 1, 1⟩, 1,
        ⟨0, 0, 0⟩, ⟨0, 0, 1⟩, ⟨0, 0, 0⟩, none⟩
      ⟨0, 0, 5⟩ ⟨1, 0, 0⟩ ⟨⟨0, 0, 0⟩, ⟨0, 0, 0⟩, ⟨1, 1, 1⟩, false, 1⟩ (Or.inl hpar)⟩

/-- C7: in translate mode, an accepted drag update sets the object's position
to the drag-start position plus the projection onto the engaged handle axis
of the vector from the drag-start object center to the drag-plane
intersection (all off-axis components of the intersection are discarded). -/
theorem drag_translate_c7 (ds : DragState) (ray_origin ray_direction : Vec3)
    (part : SceneObject) (handle : GizmoAxis)
    (hh : ds.active_gizmo_handle = some handle)
    (hdenom : ¬ |dot3 ray_direction ds.drag_plane_normal| < 1e-6)
    (ht : ¬ dot3 (ds.drag_plane_point - ray_origin) ds.drag_plane_normal
      / dot3 ray_direction ds.drag_plane_normal < 0) :
    (handle_drag_update .translate ds ray_origin ray_direction part).1 =
      { part with
          position := ds.drag_start_position +
            dot3 ((ray_origin +
                (dot3 (ds.drag_plane_point - ray_origin) ds.drag_plane_normal
                  / dot3 ray_direction ds.drag_plane_normal) • ray_direction)
              - ds.drag_start_obj_center) (axis_vec handle) • axis_vec handle } := by
  simp only [handle_drag_update, hh]
  rw [if_neg hdenom, if_neg ht]

/-- Witness for `drag_translate_c7`, the spec's drag-translate example:
object at the origin, X handle engaged, drag plane through the origin with
normal `(0,0,-1)`; the cast ray hits the plane at `(2, 0.7, 0)`, and the
resulting position is exactly `(2, 0, 0)` — the off-axis `0.7` is
discarded. -/
theorem drag_translate_c7_witness :
    (handle_drag_update .translate
      ⟨some GizmoAxis.X, ⟨0, 0, 0⟩, ⟨0, 0, 0⟩, ⟨1, 1, 1⟩, 1,
        ⟨0, 0, 0⟩, ⟨0, 0, -1⟩, ⟨0, 0, 0⟩, none⟩
      ⟨2, 0.7, 5⟩ ⟨0, 0, -1⟩ ⟨⟨0, 0, 0⟩, ⟨0, 0, 0⟩, ⟨1, 1, 1⟩, false, 1⟩).1.position
      = ⟨2, 0, 0⟩ := by
  have h := drag_translate_c7
    ⟨some GizmoAxis.X, ⟨0, 0, 0⟩, ⟨0, 0, 0⟩, ⟨1, 1, 1⟩, 1,
      ⟨0, 0, 0⟩, ⟨0, 0, -1⟩, ⟨0, 0, 0⟩, none⟩
    ⟨2, 0.7, 5⟩ ⟨0, 0, -1⟩ ⟨⟨0, 0, 0⟩, ⟨0, 0, 0⟩, ⟨1, 1, 1⟩, false, 1⟩ GizmoAxis.X
    rfl (by norm_num [dot3]) (by norm_num [dot3])
  rw [h]
  show (⟨0, 0, 0⟩ : Vec3) + _ = (⟨2, 0, 0⟩ : Vec3)
  simp only [dot3, axis_vec, Vec3.add_def, Vec3.sub_def, Vec3.smul_def, Vec3.mk.injEq]
  norm_num

/-- `np.max` over a 3-vector. -/
noncomputable def max3 (v : Vec3) : ℝ := max v.x (max v.y v.z)

/-- The shared mutable state touched by `_update_physics`: the scene list
`model_draw_list` and the derived `physics_objects` list. -/
structure EngineState where
  model_draw_list : List SceneObject
  physics_objects : List PhysicsObj

/-- `_check_enemy_xz_collision(enemy_center_xz, enemy_radius, physics_obj)`:
circle test for Sphere/Cylinder/Capsule (radius from the bounds dict with the
numpy fallback default), expanded-AABB point test for every other shape. -/
noncomputable def check_enemy_xz_collision (ecx ecz enemy_radius : ℝ)
    (obj : PhysicsObj) : Prop :=
  match obj.bounds.shape with
  | .Sphere =>
    let obj_radius := obj.bounds.radius.getD (max3 obj.bounds.size * 0.5)
    Real.sqrt ((ecx - obj.position.x) ^ 2 + (ecz - obj.position.z) ^ 2)
      < enemy_radius + obj_radius
  | .Cylinder =>
    let obj_radius := obj.bounds.radius.getD
      (max obj.bounds.size.x obj.bounds.size.z * 0.5)
    Real.sqrt ((ecx - obj.position.x) ^ 2 + (ecz - obj.position.z) ^ 2)
      < enemy_radius + obj_radius
  | .Capsule =>
    let obj_radius := obj.bounds.radius.getD
      (max obj.bounds.size.x obj.bounds.size.z * 0.5)
    Real.sqrt ((ecx - obj.position.x) ^ 2 + (ecz - obj.position.z) ^ 2)
      < enemy_radius + obj_radius
  | _ =>
    obj.bounds.min.x - enemy_radius ≤ ecx ∧ ecx ≤ obj.bounds.max.x + enemy_radius ∧
    obj.bounds.min.z - enemy_radius ≤ ecz ∧ ecz ≤ obj.bounds.max.z + enemy_radius

/-- `_check_enemy_collision(new_position, enemy_physics_obj)`: some Static
body other than the enemy itself overlaps the enemy capsule (radius 0.5,
height 2) vertically and in XZ.  The Python self-test `physics_obj ==
enemy_physics_obj` compares the dicts value-wise and decides at the distinct
`index` entries, so it is an index comparison here. -/
noncomputable def check_enemy_collision (new_position : Vec3) (enemy : PhysicsObj)
    (physics_objects : List PhysicsObj) : Prop :=
  let enemy_radius := (0.5 : ℝ)
  let enemy_height := (2.0 : ℝ)
  let enemy_bottom := new_position.y - enemy_height * 0.5
  let enemy_top := new_position.y + enemy_height * 0.5
  ∃ obj ∈ physics_objects, obj.index ≠ enemy.index ∧ obj.type = .Static ∧
    ¬ (obj.bounds.max.y < enemy_bottom ∨ enemy_top < obj.bounds.min.y) ∧
    check_enemy_xz_collision new_position.x new_position.z enemy_radius obj

noncomputable instance (ecx ecz r : ℝ) (obj : PhysicsObj) :
    Decidable (check_enemy_xz_collision ecx ecz r obj) := by
  unfold check_enemy_xz_collision
  rcases obj with ⟨idx, ty, pos, vel, av, m, ⟨bmin, bmax, bsize, shape, rad, ht⟩⟩
  cases shape <;> dsimp only <;> infer_instance

noncomputable instance (p : Vec3) (e : PhysicsObj) (l : List PhysicsObj) :
    Decidable (check_enemy_collision p e l) := by
  unfold check_enemy_collision
  infer_instance

/-- One iteration of the `_update_enemy_ai` loop, for the physics object at
list position `k` (dict mutation in Python = `List.set` here; the loop reads
the current list, so earlier iterations are visible). -/
noncomputable def enemy_ai_step (dt : ℝ) (player_position : Vec3)
    (st : EngineState) (k : ℕ) : EngineState :=
  match st.physics_objects[k]? with
  | none => st
  | some pobj =>
    match st.model_draw_list[pobj.index]? with
    | none => st
    | some sobj =>
      if sobj.is_enemy then
        let enemy_pos := pobj.position
        let enemy_speed := sobj.enemy_speed
        let dirv := player_position - enemy_pos
        let distance := norm3 dirv
        if 0.5 < distance then
          let dirn := distance⁻¹ • dirv
          let test_position := enemy_pos + (enemy_speed * dt * 2.0) • dirn
          if ¬ check_enemy_collision test_position pobj st.physics_objects then
            let force := (enemy_speed * 2.0) • dirn
            let v1 : Vec3 := ⟨force.x, pobj.velocity.y, force.z⟩
            let v2 : Vec3 := if 0 < v1.y then ⟨v1.x, 0, v1.z⟩ else v1
            let scene2 :=
              if 0.01 < |dirn.x| ∨ 0.01 < |dirn.z| then
                st.model_draw_list.set pobj.index
                  { sobj with rotation :=
                      ⟨sobj.rotation.x, atan2 dirn.x dirn.z, sobj.rotation.z⟩ }
              else st.model_draw_list
            { model_draw_list := scene2
              physics_objects := st.physics_objects.set k { pobj with velocity := v2 } }
          else
            let v1 : Vec3 := ⟨0, pobj.velocity.y, 0⟩
            let v2 : Vec3 := if 0 < v1.y then ⟨v1.x, 0, v1.z⟩ else v1
            { st with physics_objects :=
                st.physics_objects.set k { pobj with velocity := v2 } }
        else
          { st with physics_objects :=
              st.physics_objects.set k { pobj with velocity := ⟨0, pobj.velocity.y, 0⟩ } }
      else st

/-- `_update_enemy_ai(dt)`: early return unless in FPS mode, then the loop
over the physics list. -/
noncomputable def update_enemy_ai (dt : ℝ) (fps_mode : Bool)
    (player_position : Vec3) (st : EngineState) : EngineState :=
  if fps_mode then
    (List.range st.physics_objects.length).foldl (enemy_ai_step dt player_position) st
  else st

/-- The "apply physics results to scene objects" loop of `_update_physics`:
write the body position into its scene object, then recompute that body's
bounds from the updated scene object (`_calculate_physics_bounds` needs the
vertex buffer, which is outside this transform model, so the recomputation is
a parameter). -/
noncomputable def write_back (recompute_bounds : SceneObject → Bounds)
    (st : EngineState) : EngineState :=
  (List.range st.physics_objects.length).foldl (fun st k =>
    match st.physics_objects[k]? with
    | none => st
    | some pobj =>
      match st.model_draw_list[pobj.index]? with
      | none => st
      | some sobj =>
        let scene_obj2 := { sobj with position := pobj.position }
        { model_draw_list := st.model_draw_list.set pobj.index scene_obj2
          physics_objects := st.physics_objects.set k
            { pobj with bounds := recompute_bounds scene_obj2 } }) st

/-- One `_update_physics` tick (without the wall-clock dt computation and the
re-scheduling).  `rigid_phase` abstracts the `_update_rigidbody_physics` pass
over all RigidBody entries and `collision_phase` abstracts
`_check_object_collisions` / `_resolve_collision`: per the source both read
and write only the physics list (positions, velocities, angular velocities),
never the scene objects, so they are parameters universally quantified in the
theorems (this also covers every draw of the process RNG they contain). -/
noncomputable def update_physics (rigid_phase collision_phase :
      List PhysicsObj → List PhysicsObj)
    (recompute_bounds : SceneObject → Bounds) (dt : ℝ) (fps_mode : Bool)
    (player_position : Vec3) (st : EngineState) : EngineState :=
  let st1 : EngineState :=
    { st with physics_objects := collision_phase (rigid_phase st.physics_objects) }
  let st2 := update_enemy_ai dt fps_mode player_position st1
  write_back recompute_bounds st2

/-- Elementwise relation between a scene object before and after one physics
tick: scale identical, enemy flag identical, rotation x/z identical, and the
full rotation identical for non-enemy objects (only an enemy's yaw may
change). -/
def obj_rel (o o' : SceneObject) : Prop :=
  o'.scale = o.scale ∧ o'.is_enemy = o.is_enemy ∧
  o'.rotation.x = o.rotation.x ∧ o'.rotation.z = o.rotation.z ∧
  (o.is_enemy = false → o'.rotation = o.rotation)

/-- The scene-list invariant preserved by every phase of `_update_physics`. -/
def scene_rel (scene scene' : List SceneObject) : Prop :=
  scene'.length = scene.length ∧
  ∀ (j : ℕ) (o o' : SceneObject), scene[j]? = some o → scene'[j]? = some o' →
    obj_rel o o'

theorem obj_rel_refl (o : SceneObject) : obj_rel o o :=
  ⟨rfl, rfl, rfl, rfl, fun _ => rfl⟩

theorem obj_rel_trans {a b c : SceneObject} (h1 : obj_rel a b) (h2 : obj_rel b c) :
    obj_rel a c := by
  obtain ⟨s1, e1, x1, z1, r1⟩ := h1
  obtain ⟨s2, e2, x2, z2, r2⟩ := h2
  refine ⟨s2.trans s1, e2.trans e1, x2.trans x1, z2.trans z1, fun hf => ?_⟩
  have hb : b.is_enemy = false := e1.trans hf
  exact (r2 hb).trans (r1 hf)

theorem scene_rel_refl (l : List SceneObject) : scene_rel l l := by
  refine ⟨rfl, fun j o o' h h' => ?_⟩
  rw [h] at h'
  cases h'
  exact obj_rel_refl o

theorem scene_rel_trans {a b c : List SceneObject}
    (h1 : scene_rel a b) (h2 : scene_rel b c) : scene_rel a c := by
  obtain ⟨len1, el1⟩ := h1
  obtain ⟨len2, el2⟩ := h2
  refine ⟨len2.trans len1, fun j o o'' ho ho'' => ?_⟩
  have hj : j < a.length := (List.getElem?_eq_some_iff.mp ho).1
  have hjb : j < b.length := len1 ▸ hj
  have hob : b[j]? = some b[j] := List.getElem?_eq_getElem hjb
  exact obj_rel_trans (el1 j o _ ho hob) (el2 j _ o'' hob ho'')

theorem scene_rel_set (l : List SceneObject) (i : ℕ) (sobj x : SceneObject)
    (hget : l[i]? = some sobj) (hrel : obj_rel sobj x) :
    scene_rel l (l.set i x) := by
  have hi : i < l.length := (List.getElem?_eq_some_iff.mp hget).1
  have hsobj : l[i] = sobj := by
    have := List.getElem?_eq_getElem hi
    rw [this] at hget
    exact (Option.some.injEq _ _ ▸ hget : _)
  refine ⟨List.length_set .., fun j o o' ho ho' => ?_⟩
  by_cases hij : i = j
  · subst hij
    rw [List.getElem?_set_self hi] at ho'
    cases ho'
    have : o = sobj := by
      rw [List.getElem?_eq_getElem hi] at ho
      cases ho
      exact hsobj
    rw [this]
    exact hrel
  · rw [List.getElem?_set_ne hij] at ho'
    rw [ho] at ho'
    cases ho'
    exact obj_rel_refl o

theorem scene_rel_foldl (f : EngineState → ℕ → EngineState)
    (hpres : ∀ st k, scene_rel st.model_draw_list (f st k).model_draw_list) :
    ∀ (ks : List ℕ) (st : EngineState),
      scene_rel st.model_draw_list (ks.foldl f st).model_draw_list := by
  intro ks
  induction ks with
  | nil => intro st; exact scene_rel_refl _
  | cons k ks ih =>
    intro st
    exact scene_rel_trans (hpres st k) (ih (f st k))

theorem enemy_ai_step_rel (dt : ℝ) (pp : Vec3) (st : EngineState) (k : ℕ) :
    scene_rel st.model_draw_list (enemy_ai_step dt pp st k).model_draw_list := by
  rcases hk : st.physics_objects[k]? with _ | pobj
  · simp only [enemy_ai_step, hk]
    exact scene_rel_refl _
  · rcases hs : st.model_draw_list[pobj.index]? with _ | sobj
    · simp only [enemy_ai_step, hk, hs]
      exact scene_rel_refl _
    · simp only [enemy_ai_step, hk, hs]
      by_cases he : sobj.is_enemy = true
      · rw [if_pos he]
        by_cases hd : (0.5 : ℝ) < norm3 (pp - pobj.position)
        · rw [if_pos hd]
          by_cases hc : ¬ check_enemy_collision
              (pobj.position + (sobj.enemy_speed * dt * 2.0) •
                (norm3 (pp - pobj.position))⁻¹ • (pp - pobj.position))
              pobj st.physics_objects
          · rw [if_pos hc]
            by_cases hr : (0.01 : ℝ) < |((norm3 (pp - pobj.position))⁻¹ •
                (pp - pobj.position)).x| ∨
                (0.01 : ℝ) < |((norm3 (pp - pobj.position))⁻¹ • (pp - pobj.position)).z|
            · rw [if_pos hr]
              exact scene_rel_set _ _ _ _ hs
                ⟨rfl, rfl, rfl, rfl, fun hf => by rw [he] at hf; cases hf⟩
            · rw [if_neg hr]
              exact scene_rel_refl _
          · rw [if_neg hc]
            exact scene_rel_refl _
        · rw [if_neg hd]
          exact scene_rel_refl _
      · rw [if_neg he]
        exact scene_rel_refl _

theorem write_back_rel (recompute_bounds : SceneObject → Bounds) (st : EngineState) :
    scene_rel st.model_draw_list (write_back recompute_bounds st).model_draw_list := by
  refine scene_rel_foldl _ (fun st k => ?_) _ st
  rcases hk : st.physics_objects[k]? with _ | pobj
  · simp only [hk]
    exact scene_rel_refl _
  · rcases hs : st.model_draw_list[pobj.index]? with _ | sobj
    · simp only [hk, hs]
      exact scene_rel_refl _
    · simp only [hk, hs]
      exact scene_rel_set _ _ _ _ hs ⟨rfl, rfl, rfl, rfl, fun _ => rfl⟩

theorem update_enemy_ai_rel (dt : ℝ) (fps_mode : Bool) (pp : Vec3)
    (st : EngineState) :
    scene_rel st.model_draw_list (update_enemy_ai dt fps_mode pp st).model_draw_list := by
  rw [update_enemy_ai]
  split
  · exact scene_rel_foldl _ (fun st k => enemy_ai_step_rel dt pp st k) _ st
  · exact scene_rel_refl _

/-- C4 (amended: except for the enemy-AI yaw write): one physics tick — for
any behavior of the rigid-body and collision phases and of the bounds
recomputation — writes back only the position field to each scene object;
every object's scale is unchanged, the rotation x and z components are
unchanged, and the full rotation of every non-enemy object is unchanged.
Only the yaw (`rotation[1]`) of objects flagged `is_enemy` may be changed by
the enemy-AI facing update inside the tick. -/
theorem physics_step_c4 (rigid_phase collision_phase : List PhysicsObj → List PhysicsObj)
    (recompute_bounds : SceneObject → Bounds) (dt : ℝ) (fps_mode : Bool)
    (pp : Vec3) (st : EngineState) :
    (update_physics rigid_phase collision_phase recompute_bounds dt fps_mode pp
        st).model_draw_list.length = st.model_draw_list.length ∧
    ∀ (j : ℕ) (o o' : SceneObject), st.model_draw_list[j]? = some o →
      (update_physics rigid_phase collision_phase recompute_bounds dt fps_mode pp
        st).model_draw_list[j]? = some o' →
      o'.scale = o.scale ∧ o'.rotation.x = o.rotation.x ∧
      o'.rotation.z = o.rotation.z ∧
      (o.is_enemy = false → o'.rotation = o.rotation) := by
  have h1 : scene_rel st.model_draw_list
      ({ st with physics_objects := collision_phase (rigid_phase st.physics_objects)
        } : EngineState).model_draw_list := scene_rel_refl _
  have h2 := update_enemy_ai_rel dt fps_mode pp
    { st with physics_objects := collision_phase (rigid_phase st.physics_objects) }
  have h3 := write_back_rel recompute_bounds
    (update_enemy_ai dt fps_mode pp
      { st with physics_objects := collision_phase (rigid_phase st.physics_objects) })
  have hall := scene_rel_trans h1 (scene_rel_trans h2 h3)
  obtain ⟨hlen, hel⟩ := hall
  refine ⟨hlen, fun j o o' ho ho' => ?_⟩
  obtain ⟨hs, _, hx, hz, hr⟩ := hel j o o' ho ho'
  exact ⟨hs, hx, hz, hr⟩

/-- Witness for `physics_step_c4`: one tick (identity rigid/collision phases)
on a single non-enemy RigidBody leaves length, scale and rotation intact. -/
theorem physics_step_c4_witness :
    (update_physics id id
        (fun _ => ⟨⟨0, 0, 0⟩, ⟨0, 0, 0⟩, ⟨0, 0, 0⟩, PhysShape.Cube, none, none⟩)
        0.016 true ⟨1, 2, 3⟩
        ⟨[⟨⟨0, 0, 0⟩, ⟨0, 0, 0⟩, ⟨1, 1, 1⟩, false, 1⟩],
         [⟨0, PhysicsType.RigidBody, ⟨0, 0, 0⟩, ⟨0, 0, 0⟩, ⟨0, 0, 0⟩, 1,
            ⟨⟨0, 0, 0⟩, ⟨0, 0, 0⟩, ⟨0, 0, 0⟩, PhysShape.Cube, none,
              none⟩⟩]⟩).model_draw_list.length
      = (⟨[⟨⟨0, 0, 0⟩, ⟨0, 0, 0⟩, ⟨1, 1, 1⟩, false, 1⟩],
         [⟨0, PhysicsType.RigidBody, ⟨0, 0, 0⟩, ⟨0, 0, 0⟩, ⟨0, 0, 0⟩, 1,
            ⟨⟨0, 0, 0⟩, ⟨0, 0, 0⟩, ⟨0, 0, 0⟩, PhysShape.Cube, none,
              none⟩⟩]⟩ : EngineState).model_draw_list.length ∧
    ((⟨⟨0, 0, 0⟩, ⟨0, 0, 0⟩, ⟨1, 1, 1⟩, false, 1⟩ : SceneObject).is_enemy = false →
      (⟨⟨0, 0, 0⟩, ⟨0, 0, 0⟩, ⟨1, 1, 1⟩, false, 1⟩ : SceneObject).rotation
        = (⟨⟨0, 0, 0⟩, ⟨0, 0, 0⟩, ⟨1, 1, 1⟩, false, 1⟩ : SceneObject).rotation) := by
  have h := physics_step_c4 id id
    (fun _ => ⟨⟨0, 0, 0⟩, ⟨0, 0, 0⟩, ⟨0, 0, 0⟩, PhysShape.Cube, none, none⟩)
    0.016 true ⟨1, 2, 3⟩
    ⟨[⟨⟨0, 0, 0⟩, ⟨0, 0, 0⟩, ⟨1, 1, 1⟩, false, 1⟩],
     [⟨0, PhysicsType.RigidBody, ⟨0, 0, 0⟩, ⟨0, 0, 0⟩, ⟨0, 0, 0⟩, 1,
        ⟨⟨0, 0, 0⟩, ⟨0, 0, 0⟩, ⟨0, 0, 0⟩, PhysShape.Cube, none, none⟩⟩]⟩
  exact ⟨h.1, (h.2 0 _ _ rfl rfl).2.2.2⟩

theorem enemy_ai_step_rotates :
    enemy_ai_step 0.016 ⟨1, 0, 0⟩
      ⟨[⟨⟨0, 0, 0⟩, ⟨0, 0, 0⟩, ⟨1, 1, 1⟩, true, 1⟩],
       [⟨0, PhysicsType.RigidBody, ⟨0, 0, 0⟩, ⟨0, 0, 0⟩, ⟨0, 0, 0⟩, 1,
          ⟨⟨0, 0, 0⟩, ⟨0, 0, 0⟩, ⟨0, 0, 0⟩, PhysShape.Cube, none, none⟩⟩]⟩ 0 =
    ⟨[⟨⟨0, 0, 0⟩, ⟨0, Real.pi / 2, 0⟩, ⟨1, 1, 1⟩, true, 1⟩],
     [⟨0, PhysicsType.RigidBody, ⟨0, 0, 0⟩, ⟨2, 0, 0⟩, ⟨0, 0, 0⟩, 1,
        ⟨⟨0, 0, 0⟩, ⟨0, 0, 0⟩, ⟨0, 0, 0⟩, PhysShape.Cube, none, none⟩⟩]⟩ := by
  have hnorm : norm3 (⟨1 - 0, 0 - 0, 0 - 0⟩ : Vec3) = 1 := by
    rw [norm3]
    norm_num
  simp only [enemy_ai_step, List.getElem?_cons_zero, Vec3.sub_def, Vec3.smul_def,
    Vec3.add_def, hnorm]
  norm_num [check_enemy_collision, atan2_pos_zero]

/-- Counterexample to C4 as stated: a physics tick over a scene holding one
enemy RigidBody at the origin, with the player at `(1,0,0)`, writes the enemy
facing into the scene object: its rotation changes from `(0,0,0)` to
`(0, pi/2, 0)` — the step does not leave rotation untouched. -/
theorem physics_step_c4_counterexample :
    (update_physics id id
        (fun _ => ⟨⟨0, 0, 0⟩, ⟨0, 0, 0⟩, ⟨0, 0, 0⟩, PhysShape.Cube, none, none⟩)
        0.016 true ⟨1, 0, 0⟩
        ⟨[⟨⟨0, 0, 0⟩, ⟨0, 0, 0⟩, ⟨1, 1, 1⟩, true, 1⟩],
         [⟨0, PhysicsType.RigidBody, ⟨0, 0, 0⟩, ⟨0, 0, 0⟩, ⟨0, 0, 0⟩, 1,
            ⟨⟨0, 0, 0⟩, ⟨0, 0, 0⟩, ⟨0, 0, 0⟩, PhysShape.Cube, none,
              none⟩⟩]⟩).model_draw_list[0]? =
      some ⟨⟨0, 0, 0⟩, ⟨0, Real.pi / 2, 0⟩, ⟨1, 1, 1⟩, true, 1⟩ ∧
    Real.pi / 2 ≠ 0 := by
  constructor
  · simp only [update_physics, id_eq, update_enemy_ai, List.length_cons,
      List.length_nil, List.range_succ, List.range_zero, List.nil_append,
      List.foldl_cons, List.foldl_nil, if_true]
    rw [enemy_ai_step_rotates]
    simp only [write_back, List.length_cons, List.length_nil, List.range_succ,
      List.range_zero, List.nil_append, List.foldl_cons, List.foldl_nil,
      List.getElem?_cons_zero, List.set_cons_zero]
  · exact (half_pos Real.pi_pos).ne'
